import Mathlib

/-!
Verification development for the SQInput input-mapping plugin
(src/SQInput.js) and its remap scene (src/unnamed/part_000).

The JavaScript is embedded shallowly:
* JS objects used as string-keyed maps become association lists
  (`List (String × _)`) preserving insertion order;
* JS values that may be either a string key code or a numeric gamepad
  button index become `JsVal` (JS `===` is `JsVal` equality: a string is
  never `===` a number);
* fallible lookups return `Option`;
* the mutable singletons (`SQInput`, `Input`, `ConfigManager` state) are
  gathered into explicit state records threaded through the operations.
-/

/-- A JS primitive value used as a binding: either a keyboard key code
string or a gamepad button index number.  JS strict equality `===` on
these values is `DecidableEq`. -/
inductive JsVal where
  | str (s : String)
  | num (n : Int)
deriving DecidableEq, Repr

/-- Coercion of a `JsVal` to a JS object property key (JS coerces any
property key to a string; integers print in decimal). -/
def JsVal.toKey : JsVal → String
  | .str s => s
  | .num n => toString n

/-- The two binding slots of a logical function, i.e. the `type` argument
of `SQInput.setControlButton` (`"keyboardButton"` or `"gamepadButton"`). -/
inductive Slot where
  | keyboardButton
  | gamepadButton
deriving DecidableEq, Repr

/-- One entry of `SQInput.inputs`: a logical function with its current and
default bindings.  The `default*` fields are the ones written by
`SQInput.initialize` (which copies the initial buttons into
`defaultKeyboardButton` / `defaultGamepButton`); we write the
post-`initialize` record directly. -/
structure ControlInput where
  name : String
  fieldTitle : String
  keyboardButton : JsVal
  gamepadButton : JsVal
  defaultKeyboardButton : JsVal
  defaultGamepButton : JsVal
deriving DecidableEq, Repr

/-- Read one binding slot of a function (`input[type]` in the source). -/
def ControlInput.getSlot (f : ControlInput) : Slot → JsVal
  | .keyboardButton => f.keyboardButton
  | .gamepadButton => f.gamepadButton

/-- Write one binding slot of a function (`input[type] = v`). -/
def ControlInput.setSlot (f : ControlInput) : Slot → JsVal → ControlInput
  | .keyboardButton, v => { f with keyboardButton := v }
  | .gamepadButton, v => { f with gamepadButton := v }

/-- `SQInput.inputs`: a JS object mapping function ids to records, with
meaningful insertion order, modelled as an association list. -/
abbrev Table := List (String × ControlInput)

/-- Helper for building a default entry whose defaults equal its initial
buttons, as `SQInput.initialize` leaves them. -/
def mkInput (name title : String) (kb : String) (gp : Int) : ControlInput :=
  { name := name, fieldTitle := title
    keyboardButton := .str kb, gamepadButton := .num gp
    defaultKeyboardButton := .str kb, defaultGamepButton := .num gp }

/-- `SQInput.inputs` after `SQInput.initialize` with no custom controls:
the ten built-in functions in source order.  Note the `cycle_right` /
`cycle_left` entries keep their source `name` fields (`"pageup"` /
`"pagedown"`), which differ from their object keys. -/
def defaultInputs : Table :=
  [ ("up", mkInput "up" "Up" "ArrowUp" 12),
    ("down", mkInput "down" "Down" "ArrowDown" 13),
    ("left", mkInput "left" "Left" "ArrowLeft" 14),
    ("right", mkInput "right" "Right" "ArrowRight" 15),
    ("cancel", mkInput "cancel" "Cancel" "KeyX" 1),
    ("confirm", mkInput "confirm" "Confirm" "KeyZ" 0),
    ("menu", mkInput "menu" "Menu" "KeyS" 3),
    ("dash", mkInput "dash" "Dash" "KeyQ" 6),
    ("cycle_right", mkInput "pageup" "Page Up" "PageUp" 7),
    ("cycle_left", mkInput "pagedown" "Page Down" "PageDown" 8) ]

/-- Set one slot of the entry with the given key (JS
`this.inputs[k][type] = v`; object keys are unique, so mapping over all
entries with a matching key is the object update). -/
def updateSlot (t : Table) (k : String) (s : Slot) (v : JsVal) : Table :=
  t.map (fun p => if p.1 = k then (p.1, p.2.setSlot s v) else p)

/-- The duplicate scan of `SQInput.setControlButton`: the first function
`i ≠ control` whose binding in `slot` strictly equals the new value. -/
def findDuplicate (t : Table) (control : String) (s : Slot) (v : JsVal) :
    Option String :=
  (t.find? (fun p => p.2.getSlot s == v && p.1 != control)).map (·.1)

/-- `SQInput.setControlButton(control, keyCode, type)` restricted to its
effect on `SQInput.inputs` (the trailing `rebuildButtonMapper` call is
modelled separately, as it only rewrites the derived lookup maps).
Mirrors the source exactly: early return when the control is unknown;
first-match duplicate scan; the swap is guarded by JS truthiness of the
duplicate's key (an empty-string key would be falsy and skip the swap). -/
def setControlButton (t : Table) (control : String) (v : JsVal) (s : Slot) :
    Table :=
  match t.lookup control with
  | none => t
  | some cur =>
      let t1 :=
        match findDuplicate t control s v with
        | some d => if d = "" then t else updateSlot t d s (cur.getSlot s)
        | none => t
      updateSlot t1 control s v

/-- A rebind command: `setControlButton(control, value, slot)`. -/
structure RebindCmd where
  control : String
  value : JsVal
  slot : Slot
deriving DecidableEq, Repr

/-- Apply a sequence of rebind calls in order. -/
def applyRebinds (t : Table) (cmds : List RebindCmd) : Table :=
  cmds.foldl (fun acc c => setControlButton acc c.control c.value c.slot) t

/-- Per-slot injectivity of a binding table: no two distinct logical
functions share a binding value in the same slot. -/
def slotInjective (t : Table) (s : Slot) : Prop :=
  ∀ k1 k2 f1 f2, t.lookup k1 = some f1 → t.lookup k2 = some f2 →
    k1 ≠ k2 → f1.getSlot s ≠ f2.getSlot s

/-! ### Association-list lemmas -/

theorem getSlot_setSlot (f : ControlInput) (s s' : Slot) (v : JsVal) :
    (f.setSlot s v).getSlot s' = if s' = s then v else f.getSlot s' := by
  cases s <;> cases s' <;> rfl

theorem defaults_setSlot (f : ControlInput) (s : Slot) (v : JsVal) :
    (f.setSlot s v).defaultKeyboardButton = f.defaultKeyboardButton ∧
    (f.setSlot s v).defaultGamepButton = f.defaultGamepButton := by
  cases s <;> exact ⟨rfl, rfl⟩

theorem mem_of_lookup_eq_some {α β : Type} [BEq α] [LawfulBEq α]
    {t : List (α × β)} {k : α} {f : β} (h : t.lookup k = some f) :
    (k, f) ∈ t := by
  induction t with
  | nil => simp [List.lookup] at h
  | cons p rest ih =>
      rw [show p = (p.1, p.2) from rfl, List.lookup_cons] at h
      by_cases hk : k = p.1
      · simp [hk] at h
        exact List.mem_cons.mpr (Or.inl (by rw [← h, hk]))
      · simp [beq_eq_false_iff_ne.mpr hk] at h
        exact List.mem_cons_of_mem _ (ih h)

theorem lookup_eq_some_of_mem {β : Type} {t : List (String × β)} {k : String}
    {f : β} (hnd : (t.map (·.1)).Nodup) (h : (k, f) ∈ t) :
    t.lookup k = some f := by
  induction t with
  | nil => simp at h
  | cons p rest ih =>
      simp only [List.map_cons, List.nodup_cons] at hnd
      rcases List.mem_cons.mp h with h' | h'
      · rw [← h', List.lookup_cons]
        simp
      · rw [show p = (p.1, p.2) from rfl, List.lookup_cons]
        have hk : k ≠ p.1 := by
          intro hkp
          exact hnd.1 (hkp ▸ (List.mem_map_of_mem (·.1) h'))
        simp [beq_eq_false_iff_ne.mpr hk]
        exact ih hnd.2 h'

theorem lookup_eq_none_of_not_mem {α β : Type} [BEq α] [LawfulBEq α]
    {t : List (α × β)} {k : α} (h : k ∉ t.map (·.1)) : t.lookup k = none := by
  induction t with
  | nil => rfl
  | cons p rest ih =>
      have h1 : k ≠ p.1 := fun he => h (by simp [he])
      have h2 : k ∉ rest.map (·.1) := fun hm => h (by simp [hm])
      rw [show p = (p.1, p.2) from rfl, List.lookup_cons]
      simp only [beq_eq_false_iff_ne.mpr h1]
      exact ih h2

theorem lookup_cons_self {α β : Type} [BEq α] [LawfulBEq α] (k : α) (f : β)
    (rest : List (α × β)) : List.lookup k ((k, f) :: rest) = some f := by
  rw [List.lookup_cons]
  simp

theorem lookup_cons_ne {α β : Type} [BEq α] [LawfulBEq α] {a k' : α} (f : β)
    (rest : List (α × β)) (h : k' ≠ a) :
    List.lookup k' ((a, f) :: rest) = List.lookup k' rest := by
  rw [List.lookup_cons]
  simp [beq_eq_false_iff_ne.mpr h]

theorem updateSlot_keys (t : Table) (k : String) (s : Slot) (v : JsVal) :
    (updateSlot t k s v).map (·.1) = t.map (·.1) := by
  unfold updateSlot
  rw [List.map_map]
  apply List.map_congr_left
  intro p _
  by_cases h : p.1 = k <;> simp [h]

theorem lookup_updateSlot (t : Table) (k : String) (s : Slot) (v : JsVal)
    (k' : String) :
    (updateSlot t k s v).lookup k' =
      if k' = k then (t.lookup k').map (fun f => f.setSlot s v)
      else t.lookup k' := by
  induction t with
  | nil => by_cases h : k' = k <;> simp [updateSlot, List.lookup, h]
  | cons p rest ih =>
      obtain ⟨a, f⟩ := p
      have hp : updateSlot ((a, f) :: rest) k s v
          = (a, if a = k then f.setSlot s v else f) :: updateSlot rest k s v := by
        by_cases h : a = k <;> simp [updateSlot, h]
      rw [hp]
      by_cases hk' : k' = a
      · subst hk'
        rw [lookup_cons_self, lookup_cons_self]
        by_cases hak : k' = k <;> simp [hak]
      · rw [lookup_cons_ne _ _ hk', lookup_cons_ne _ _ hk', ih]

/-! ### Key and default preservation of rebinds -/

theorem updateSlot_defaults (t : Table) (k : String) (s : Slot) (v : JsVal) :
    (updateSlot t k s v).map
        (fun p => (p.1, p.2.defaultKeyboardButton, p.2.defaultGamepButton))
      = t.map (fun p => (p.1, p.2.defaultKeyboardButton, p.2.defaultGamepButton)) := by
  unfold updateSlot
  rw [List.map_map]
  apply List.map_congr_left
  intro p _
  by_cases h : p.1 = k <;>
    simp [h, (defaults_setSlot p.2 s v).1, (defaults_setSlot p.2 s v).2]

/-- Unfolding equation for `setControlButton`. -/
theorem setControlButton_eq (t : Table) (c : String) (v : JsVal) (s : Slot) :
    setControlButton t c v s =
      match t.lookup c with
      | none => t
      | some cur =>
          updateSlot
            (match findDuplicate t c s v with
             | some d => if d = "" then t else updateSlot t d s (cur.getSlot s)
             | none => t) c s v := rfl

theorem setControlButton_keys (t : Table) (c : String) (v : JsVal) (s : Slot) :
    (setControlButton t c v s).map (·.1) = t.map (·.1) := by
  rw [setControlButton_eq]
  cases hc : t.lookup c with
  | none => rfl
  | some cur =>
      cases hd : findDuplicate t c s v with
      | none => simp [updateSlot_keys]
      | some d =>
          by_cases hde : d = "" <;> simp [hde, updateSlot_keys]

theorem setControlButton_defaults (t : Table) (c : String) (v : JsVal) (s : Slot) :
    (setControlButton t c v s).map
        (fun p => (p.1, p.2.defaultKeyboardButton, p.2.defaultGamepButton))
      = t.map (fun p => (p.1, p.2.defaultKeyboardButton, p.2.defaultGamepButton)) := by
  rw [setControlButton_eq]
  cases hc : t.lookup c with
  | none => rfl
  | some cur =>
      cases hd : findDuplicate t c s v with
      | none => simp [updateSlot_defaults]
      | some d =>
          by_cases hde : d = "" <;> simp [hde, updateSlot_defaults]

/-! ### Injectivity of rebinding -/

theorem slotInjective_of_nodup_vals (t : Table) (s : Slot)
    (hv : (t.map (fun p => p.2.getSlot s)).Nodup) : slotInjective t s := by
  intro k1 k2 f1 f2 h1 h2 hk hval
  have m1 := mem_of_lookup_eq_some h1
  have m2 := mem_of_lookup_eq_some h2
  have heq := List.inj_on_of_nodup_map hv m1 m2 hval
  exact hk (congrArg (·.1) heq)

theorem findDuplicate_none_spec {t : Table} {c : String} {s : Slot} {v : JsVal}
    (hd : findDuplicate t c s v = none) :
    ∀ p ∈ t, p.1 ≠ c → p.2.getSlot s ≠ v := by
  unfold findDuplicate at hd
  have hfind : t.find? (fun p => p.2.getSlot s == v && p.1 != c) = none := by
    cases h : t.find? (fun p => p.2.getSlot s == v && p.1 != c) with
    | none => rfl
    | some p => rw [h] at hd; simp at hd
  intro p hp hpc hpv
  have := List.find?_eq_none.mp hfind p hp
  simp [hpv, hpc] at this

theorem findDuplicate_some_spec {t : Table} {c d : String} {s : Slot} {v : JsVal}
    (hd : findDuplicate t c s v = some d) :
    ∃ fd, (d, fd) ∈ t ∧ fd.getSlot s = v ∧ d ≠ c := by
  unfold findDuplicate at hd
  cases h : t.find? (fun p => p.2.getSlot s == v && p.1 != c) with
  | none => rw [h] at hd; simp at hd
  | some p =>
      rw [h] at hd
      simp at hd
      have hmem := List.mem_of_find?_eq_some h
      have hpred := List.find?_some h
      simp at hpred
      refine ⟨p.2, ?_, hpred.1, hd ▸ hpred.2⟩
      rw [← hd]
      exact hmem

theorem lookup_setControlButton_no_dup {t : Table} {c : String} {v : JsVal}
    {s : Slot} {cur : ControlInput} (hc : t.lookup c = some cur)
    (hd : findDuplicate t c s v = none) (k : String) :
    (setControlButton t c v s).lookup k =
      if k = c then some (cur.setSlot s v) else t.lookup k := by
  have he : setControlButton t c v s = updateSlot t c s v := by
    rw [setControlButton_eq, hc, hd]
  rw [he, lookup_updateSlot]
  by_cases hk : k = c
  · simp [hk, hc]
  · simp [hk]

theorem lookup_setControlButton_dup {t : Table} {c d : String} {v : JsVal}
    {s : Slot} {cur : ControlInput} (hc : t.lookup c = some cur)
    (hd : findDuplicate t c s v = some d) (hde : d ≠ "") (hdc : d ≠ c)
    (k : String) :
    (setControlButton t c v s).lookup k =
      if k = c then some (cur.setSlot s v)
      else if k = d then
        (t.lookup d).map (fun f => f.setSlot s (cur.getSlot s))
      else t.lookup k := by
  have he : setControlButton t c v s
      = updateSlot (updateSlot t d s (cur.getSlot s)) c s v := by
    rw [setControlButton_eq, hc, hd]
    dsimp only
    rw [if_neg hde]
  rw [he, lookup_updateSlot, lookup_updateSlot]
  by_cases hk : k = c
  · have hkd : ¬ k = d := fun h => hdc (by rw [← h]; exact hk)
    simp only [if_pos hk, if_neg hkd]
    rw [hk, hc]
    rfl
  · simp only [if_neg hk]
    by_cases hkd : k = d
    · simp only [if_pos hkd]
      rw [hkd]
    · simp only [if_neg hkd]

theorem slotInjective_setControlButton {t : Table} (c : String) (v : JsVal)
    (s0 : Slot)
    (hnd : (t.map (·.1)).Nodup)
    (hne : "" ∉ t.map (·.1))
    (hinj : ∀ s, slotInjective t s) :
    ∀ s, slotInjective (setControlButton t c v s0) s := by
  intro s
  cases hc : t.lookup c with
  | none =>
      have he : setControlButton t c v s0 = t := by rw [setControlButton_eq, hc]
      rw [he]
      exact hinj s
  | some cur =>
    cases hd : findDuplicate t c s0 v with
    | none =>
      intro k1 k2 f1 f2 h1 h2 hk12 hval
      rw [lookup_setControlButton_no_dup hc hd] at h1 h2
      have hspec := findDuplicate_none_spec hd
      by_cases hk1 : k1 = c <;> by_cases hk2 : k2 = c
      · exact hk12 (hk1.trans hk2.symm)
      · rw [if_pos hk1] at h1
        rw [if_neg hk2] at h2
        have hf1 : f1 = cur.setSlot s0 v := (Option.some.inj h1).symm
        by_cases hs : s = s0
        · have hv1 : f1.getSlot s = v := by
            rw [hf1, getSlot_setSlot, if_pos hs]
          have := hspec (k2, f2) (mem_of_lookup_eq_some h2) hk2
          exact this (by rw [← hs, ← hval, hv1])
        · have hv1 : f1.getSlot s = cur.getSlot s := by
            rw [hf1, getSlot_setSlot, if_neg hs]
          exact hinj s c k2 cur f2 hc h2 (fun h => hk2 h.symm)
            (by rw [← hv1, hval])
      · rw [if_neg hk1] at h1
        rw [if_pos hk2] at h2
        have hf2 : f2 = cur.setSlot s0 v := (Option.some.inj h2).symm
        by_cases hs : s = s0
        · have hv2 : f2.getSlot s = v := by
            rw [hf2, getSlot_setSlot, if_pos hs]
          have := hspec (k1, f1) (mem_of_lookup_eq_some h1) hk1
          exact this (by rw [← hs, hval, hv2])
        · have hv2 : f2.getSlot s = cur.getSlot s := by
            rw [hf2, getSlot_setSlot, if_neg hs]
          exact hinj s c k1 cur f1 hc h1 (fun h => hk1 h.symm)
            (by rw [← hv2, ← hval])
      · rw [if_neg hk1] at h1
        rw [if_neg hk2] at h2
        exact hinj s k1 k2 f1 f2 h1 h2 hk12 hval
    | some d =>
      obtain ⟨fd, hfdmem, hfdval, hdc⟩ := findDuplicate_some_spec hd
      have hde : d ≠ "" := by
        intro h
        exact hne (h ▸ List.mem_map_of_mem (·.1) hfdmem)
      have hfd : t.lookup d = some fd := lookup_eq_some_of_mem hnd hfdmem
      intro k1 k2 f1 f2 h1 h2 hk12 hval
      rw [lookup_setControlButton_dup hc hd hde hdc, hfd] at h1 h2
      have hcd : (c : String) ≠ d := fun h => hdc h.symm
      by_cases hk1c : k1 = c <;> by_cases hk2c : k2 = c
      · exact hk12 (hk1c.trans hk2c.symm)
      · -- k1 = c
        rw [if_pos hk1c] at h1
        rw [if_neg hk2c] at h2
        have hf1 : f1 = cur.setSlot s0 v := (Option.some.inj h1).symm
        by_cases hk2d : k2 = d
        · rw [if_pos hk2d] at h2
          have hf2 : f2 = fd.setSlot s0 (cur.getSlot s0) :=
            (Option.some.inj h2).symm
          by_cases hs : s = s0
          · -- v = cur.getSlot s0 would collide fd with cur
            have : v = cur.getSlot s0 := by
              have e1 : f1.getSlot s = v := by
                rw [hf1, getSlot_setSlot, if_pos hs]
              have e2 : f2.getSlot s = cur.getSlot s0 := by
                rw [hf2, getSlot_setSlot, if_pos hs]
              rw [← e1, ← e2, hval]
            exact hinj s0 d c fd cur hfd hc hdc (by rw [hfdval, this])
          · have e1 : f1.getSlot s = cur.getSlot s := by
              rw [hf1, getSlot_setSlot, if_neg hs]
            have e2 : f2.getSlot s = fd.getSlot s := by
              rw [hf2, getSlot_setSlot, if_neg hs]
            exact hinj s c d cur fd hc hfd hcd (by rw [← e1, ← e2, hval])
        · rw [if_neg hk2d] at h2
          by_cases hs : s = s0
          · have e1 : f1.getSlot s = v := by
              rw [hf1, getSlot_setSlot, if_pos hs]
            have : fd.getSlot s0 = f2.getSlot s0 := by
              rw [hfdval, ← e1, hval, hs]
            exact hinj s0 d k2 fd f2 hfd h2 (fun h => hk2d h.symm) this
          · have e1 : f1.getSlot s = cur.getSlot s := by
              rw [hf1, getSlot_setSlot, if_neg hs]
            exact hinj s c k2 cur f2 hc h2 (fun h => hk2c h.symm)
              (by rw [← e1, hval])
      · -- k2 = c
        rw [if_pos hk2c] at h2
        rw [if_neg hk1c] at h1
        have hf2 : f2 = cur.setSlot s0 v := (Option.some.inj h2).symm
        by_cases hk1d : k1 = d
        · rw [if_pos hk1d] at h1
          have hf1 : f1 = fd.setSlot s0 (cur.getSlot s0) :=
            (Option.some.inj h1).symm
          by_cases hs : s = s0
          · have : v = cur.getSlot s0 := by
              have e2 : f2.getSlot s = v := by
                rw [hf2, getSlot_setSlot, if_pos hs]
              have e1 : f1.getSlot s = cur.getSlot s0 := by
                rw [hf1, getSlot_setSlot, if_pos hs]
              rw [← e2, ← e1, hval]
            exact hinj s0 d c fd cur hfd hc hdc (by rw [hfdval, this])
          · have e2 : f2.getSlot s = cur.getSlot s := by
              rw [hf2, getSlot_setSlot, if_neg hs]
            have e1 : f1.getSlot s = fd.getSlot s := by
              rw [hf1, getSlot_setSlot, if_neg hs]
            exact hinj s c d cur fd hc hfd hcd (by rw [← e2, ← e1, ← hval])
        · rw [if_neg hk1d] at h1
          by_cases hs : s = s0
          · have e2 : f2.getSlot s = v := by
              rw [hf2, getSlot_setSlot, if_pos hs]
            have : fd.getSlot s0 = f1.getSlot s0 := by
              rw [hfdval, ← e2, ← hval, hs]
            exact hinj s0 d k1 fd f1 hfd h1 (fun h => hk1d h.symm) this
          · have e2 : f2.getSlot s = cur.getSlot s := by
              rw [hf2, getSlot_setSlot, if_neg hs]
            exact hinj s c k1 cur f1 hc h1 (fun h => hk1c h.symm)
              (by rw [← e2, ← hval])
      · -- neither is c
        rw [if_neg hk1c] at h1
        rw [if_neg hk2c] at h2
        by_cases hk1d : k1 = d <;> by_cases hk2d : k2 = d
        · exact hk12 (hk1d.trans hk2d.symm)
        · rw [if_pos hk1d] at h1
          rw [if_neg hk2d] at h2
          have hf1 : f1 = fd.setSlot s0 (cur.getSlot s0) :=
            (Option.some.inj h1).symm
          by_cases hs : s = s0
          · have e1 : f1.getSlot s = cur.getSlot s0 := by
              rw [hf1, getSlot_setSlot, if_pos hs]
            exact hinj s0 c k2 cur f2 hc h2 (fun h => hk2c h.symm)
              (by rw [← e1, hval, hs])
          · have e1 : f1.getSlot s = fd.getSlot s := by
              rw [hf1, getSlot_setSlot, if_neg hs]
            exact hinj s d k2 fd f2 hfd h2 (fun h => hk2d h.symm)
              (by rw [← e1, hval])
        · rw [if_pos hk2d] at h2
          rw [if_neg hk1d] at h1
          have hf2 : f2 = fd.setSlot s0 (cur.getSlot s0) :=
            (Option.some.inj h2).symm
          by_cases hs : s = s0
          · have e2 : f2.getSlot s = cur.getSlot s0 := by
              rw [hf2, getSlot_setSlot, if_pos hs]
            exact hinj s0 c k1 cur f1 hc h1 (fun h => hk1c h.symm)
              (by rw [← e2, ← hval, hs])
          · have e2 : f2.getSlot s = fd.getSlot s := by
              rw [hf2, getSlot_setSlot, if_neg hs]
            exact hinj s d k1 fd f1 hfd h1 (fun h => hk1d h.symm)
              (by rw [← e2, ← hval])
        · rw [if_neg hk1d] at h1
          rw [if_neg hk2d] at h2
          exact hinj s k1 k2 f1 f2 h1 h2 hk12 hval

/-- Invariant of the binding table reachable from the default table by
rebind calls: same keys in the same order, same stored defaults, and
per-slot injectivity. -/
structure TblInv (t : Table) : Prop where
  keys : t.map (·.1) = defaultInputs.map (·.1)
  defaults : t.map (fun p => (p.1, p.2.defaultKeyboardButton, p.2.defaultGamepButton))
      = defaultInputs.map (fun p => (p.1, p.2.defaultKeyboardButton, p.2.defaultGamepButton))
  inj : ∀ s, slotInjective t s

theorem tblInv_defaultInputs : TblInv defaultInputs := by
  refine ⟨rfl, rfl, fun s => slotInjective_of_nodup_vals _ s ?_⟩
  cases s <;> decide

theorem tblInv_keys_nodup {t : Table} (h : TblInv t) : (t.map (·.1)).Nodup := by
  rw [h.keys]
  decide

theorem tblInv_keys_ne_empty {t : Table} (h : TblInv t) : "" ∉ t.map (·.1) := by
  rw [h.keys]
  decide

theorem tblInv_setControlButton {t : Table} (h : TblInv t) (c : String)
    (v : JsVal) (s : Slot) : TblInv (setControlButton t c v s) :=
  ⟨(setControlButton_keys t c v s).trans h.keys,
   (setControlButton_defaults t c v s).trans h.defaults,
   slotInjective_setControlButton c v s (tblInv_keys_nodup h)
     (tblInv_keys_ne_empty h) h.inj⟩

theorem tblInv_applyRebinds (cmds : List RebindCmd) {t : Table} (h : TblInv t) :
    TblInv (applyRebinds t cmds) := by
  induction cmds generalizing t with
  | nil => exact h
  | cons cmd rest ih =>
      exact ih (tblInv_setControlButton h cmd.control cmd.value cmd.slot)

/-- The swap behaviour of a single rebind: when the new value is currently
held by another function `d`, that function receives the rebound
function's old value. -/
theorem setControlButton_swap {t : Table} (c d : String) (v : JsVal)
    (s : Slot) (fc fd : ControlInput)
    (hnd : (t.map (·.1)).Nodup) (hde : d ≠ "")
    (hinj : slotInjective t s)
    (hc : t.lookup c = some fc) (hdl : t.lookup d = some fd)
    (hdc : d ≠ c) (hval : fd.getSlot s = v) :
    (setControlButton t c v s).lookup d = some (fd.setSlot s (fc.getSlot s)) := by
  have hfind : findDuplicate t c s v = some d := by
    cases hf : findDuplicate t c s v with
    | none =>
        exact absurd hval
          (findDuplicate_none_spec hf (d, fd) (mem_of_lookup_eq_some hdl) hdc)
    | some e =>
        obtain ⟨fe, hemem, heval, hec⟩ := findDuplicate_some_spec hf
        have hel : t.lookup e = some fe := lookup_eq_some_of_mem hnd hemem
        by_cases hed : e = d
        · rw [hed]
        · exact absurd (heval.trans hval.symm)
            (hinj e d fe fd hel hdl hed)
  rw [lookup_setControlButton_dup hc hfind hde hdc, if_neg hdc,
    if_pos rfl, hdl]
  rfl

/-- C1: starting from the default binding table (injective per slot),
after any sequence of `setControlButton(control, value, slot)` rebind
calls, no two distinct logical functions share a binding value in the
same slot; and when a further rebind's new value is currently held by
another function `d`, `d` receives the rebound function's old value in
that slot (the swap). -/
theorem rebind_injectivity_and_swap (cmds : List RebindCmd) :
    (∀ s, slotInjective (applyRebinds defaultInputs cmds) s) ∧
    (∀ c d v s fc fd,
      (applyRebinds defaultInputs cmds).lookup c = some fc →
      (applyRebinds defaultInputs cmds).lookup d = some fd →
      d ≠ c → fd.getSlot s = v →
      ∃ fd2,
        (setControlButton (applyRebinds defaultInputs cmds) c v s).lookup d
          = some fd2 ∧ fd2.getSlot s = fc.getSlot s) := by
  have h := tblInv_applyRebinds cmds tblInv_defaultInputs
  refine ⟨h.inj, fun c d v s fc fd hc hdl hdc hval => ?_⟩
  have hde : d ≠ "" := by
    intro he
    exact tblInv_keys_ne_empty h
      (he ▸ List.mem_map_of_mem (·.1) (mem_of_lookup_eq_some hdl))
  refine ⟨fd.setSlot s (fc.getSlot s), ?_, by rw [getSlot_setSlot, if_pos rfl]⟩
  exact setControlButton_swap c d v s fc fd (tblInv_keys_nodup h) hde
    (h.inj s) hc hdl hdc hval

/-- Witness for C1: after zero rebinds, rebinding `cancel` onto gamepad
button 0 (held by `confirm`) hands `confirm` the old `cancel` button. -/
theorem rebind_injectivity_and_swap_witness :
    ((applyRebinds defaultInputs []).lookup "cancel"
        = some (mkInput "cancel" "Cancel" "KeyX" 1) ∧
     (applyRebinds defaultInputs []).lookup "confirm"
        = some (mkInput "confirm" "Confirm" "KeyZ" 0) ∧
     ("confirm" : String) ≠ "cancel" ∧
     (mkInput "confirm" "Confirm" "KeyZ" 0).getSlot Slot.gamepadButton
        = JsVal.num 0) ∧
    (∀ s, slotInjective (applyRebinds defaultInputs []) s) ∧
    (∃ fd2,
      (setControlButton (applyRebinds defaultInputs [])
          "cancel" (JsVal.num 0) Slot.gamepadButton).lookup "confirm"
        = some fd2 ∧
      fd2.getSlot Slot.gamepadButton
        = (mkInput "cancel" "Cancel" "KeyX" 1).getSlot Slot.gamepadButton) :=
  ⟨⟨by rfl, by rfl, by decide, by rfl⟩,
   (rebind_injectivity_and_swap []).1,
   (rebind_injectivity_and_swap []).2 "cancel" "confirm" (JsVal.num 0)
     Slot.gamepadButton (mkInput "cancel" "Cancel" "KeyX" 1)
     (mkInput "confirm" "Confirm" "KeyZ" 0) (by rfl) (by rfl) (by decide)
     (by rfl)⟩

/-! ### The rebuilt keyboard mapper (`SQInput.rebuildButtonMapper`) -/

/-- `Input.keyMapper` as rebuilt by the plugin: a JS object from key code
strings to arrays of logical names. -/
abbrev KMap := List (String × List String)

/-- JS object read `m[k]` (`undefined` becomes `none`). -/
def kmGet (m : KMap) (k : String) : Option (List String) := m.lookup k

/-- JS object write `m[k] = v`: replace in place if the key exists,
append otherwise. -/
def kmSet (m : KMap) (k : String) (v : List String) : KMap :=
  if (m.lookup k).isSome then
    m.map (fun p => if p.1 = k then (p.1, v) else p)
  else m ++ [(k, v)]

/-- JS `m[k].push(v)` on an existing entry. -/
def kmPush (m : KMap) (k : String) (v : String) : KMap :=
  m.map (fun p => if p.1 = k then (p.1, p.2 ++ [v]) else p)

/-- `SQInput.resetMap` restricted to `SQInput.inputs`: restore every
function's buttons from its stored defaults (the trailing
`rebuildButtonMapper` call is modelled separately). -/
def resetMapInputs (t : Table) : Table :=
  t.map (fun p => (p.1,
    { p.2 with keyboardButton := p.2.defaultKeyboardButton,
               gamepadButton := p.2.defaultGamepButton }))

/-- The keyboard half of `SQInput.rebuildButtonMapper`: one entry per
function keyed by its current keyboard code, the conditional
`static_tab` / `static_escape` failsafe entries, then the five fixed
overrides for the names the engine itself polls.  Returns `none` when
one of the five built-in names the source dereferences is missing (the
JS would throw a TypeError there). -/
def rebuildKeyboardMap (t : Table) : Option KMap :=
  match t.lookup "cancel", t.lookup "confirm", t.lookup "dash",
        t.lookup "cycle_left", t.lookup "cycle_right" with
  | some fCancel, some fConfirm, some fDash, some fCl, some fCr =>
      let m0 := t.foldl (fun m p => kmSet m p.2.keyboardButton.toKey [p.1]) []
      let m1 := if (kmGet m0 "Tab").isSome then m0
                else kmSet m0 "Tab" ["static_tab"]
      let m2 := if (kmGet m1 "Escape").isSome then m1
                else kmSet m1 "Escape" ["static_escape"]
      let m3 := kmSet m2 fCancel.keyboardButton.toKey ["cancel"]
      let m4 := kmSet m3 fConfirm.keyboardButton.toKey ["confirm"]
      let m5 := kmPush m4 fConfirm.keyboardButton.toKey "ok"
      let m6 := kmSet m5 fDash.keyboardButton.toKey ["shift"]
      let m7 := kmSet m6 fCl.keyboardButton.toKey ["pageup"]
      let m8 := kmSet m7 fCr.keyboardButton.toKey ["pagedown"]
      some m8
  | _, _, _, _, _ => none

theorem lookup_map_modify {α β : Type} [BEq α] [LawfulBEq α] [DecidableEq α]
    (m : List (α × β)) (k : α) (g : β → β) (k' : α) :
    (m.map (fun p => if p.1 = k then (p.1, g p.2) else p)).lookup k' =
      if k' = k then (m.lookup k').map g else m.lookup k' := by
  induction m with
  | nil => by_cases h : k' = k <;> simp [List.lookup, h]
  | cons p rest ih =>
      obtain ⟨a, f⟩ := p
      have hp : ((a, f) :: rest).map (fun p => if p.1 = k then (p.1, g p.2) else p)
          = (a, if a = k then g f else f)
            :: rest.map (fun p => if p.1 = k then (p.1, g p.2) else p) := by
        by_cases h : a = k <;> simp [h]
      rw [hp]
      by_cases hk' : k' = a
      · subst hk'
        rw [lookup_cons_self, lookup_cons_self]
        by_cases hak : k' = k <;> simp [hak]
      · rw [lookup_cons_ne _ _ hk', lookup_cons_ne _ _ hk', ih]

theorem lookup_append_single {α β : Type} [BEq α] [LawfulBEq α]
    [DecidableEq α] (m : List (α × β)) (k k' : α) (v : β) :
    (m ++ [(k, v)]).lookup k' =
      match m.lookup k' with
      | some w => some w
      | none => if k' = k then some v else none := by
  induction m with
  | nil =>
      rw [List.nil_append]
      by_cases h : k' = k
      · rw [h, lookup_cons_self]
        simp
      · rw [lookup_cons_ne _ _ h]
        simp [List.lookup, h]
  | cons p rest ih =>
      obtain ⟨a, f⟩ := p
      by_cases hk' : k' = a
      · subst hk'
        rw [List.cons_append, lookup_cons_self, lookup_cons_self]
      · rw [List.cons_append, lookup_cons_ne _ _ hk', lookup_cons_ne _ _ hk', ih]

theorem kmGet_kmSet_self (m : KMap) (k : String) (v : List String) :
    kmGet (kmSet m k v) k = some v := by
  unfold kmGet kmSet
  by_cases h : (m.lookup k).isSome
  · rw [if_pos h]
    have := lookup_map_modify m k (fun _ => v) k
    rw [if_pos rfl] at this
    rw [this]
    obtain ⟨w, hw⟩ := Option.isSome_iff_exists.mp h
    rw [hw]
    rfl
  · rw [if_neg h, lookup_append_single]
    rw [Option.not_isSome_iff_eq_none.mp h]
    simp

theorem kmGet_kmSet_ne (m : KMap) (k : String) (v : List String)
    (k' : String) (h : k' ≠ k) : kmGet (kmSet m k v) k' = kmGet m k' := by
  unfold kmGet kmSet
  by_cases hs : (m.lookup k).isSome
  · rw [if_pos hs]
    have := lookup_map_modify m k (fun _ => v) k'
    rw [if_neg h] at this
    rw [this]
  · rw [if_neg hs, lookup_append_single]
    cases hl : m.lookup k' with
    | some w => rfl
    | none => simp [h]

theorem kmGet_kmPush_ne (m : KMap) (k : String) (v : String)
    (k' : String) (h : k' ≠ k) : kmGet (kmPush m k v) k' = kmGet m k' := by
  unfold kmGet kmPush
  have := lookup_map_modify m k (fun l => l ++ [v]) k'
  rw [if_neg h] at this
  rw [this]

theorem lookup_isSome_of_mem_keys {β : Type} {t : List (String × β)}
    {k : String} (h : k ∈ t.map (·.1)) : (t.lookup k).isSome := by
  induction t with
  | nil => simp at h
  | cons p rest ih =>
      rw [show p = (p.1, p.2) from rfl, List.lookup_cons]
      by_cases hk : k = p.1
      · simp [hk]
      · simp only [beq_eq_false_iff_ne.mpr hk]
        refine ih ?_
        simp only [List.map_cons, List.mem_cons] at h
        exact h.resolve_left hk

theorem kmGet_buildLoop_of_ne (t : Table) (init : KMap) (key : String)
    (h : ∀ p ∈ t, p.2.keyboardButton.toKey ≠ key) :
    kmGet (t.foldl (fun m p => kmSet m p.2.keyboardButton.toKey [p.1]) init)
        key = kmGet init key := by
  induction t generalizing init with
  | nil => rfl
  | cons p rest ih =>
      rw [List.foldl_cons]
      rw [ih _ (fun q hq => h q (List.mem_cons_of_mem _ hq))]
      exact kmGet_kmSet_ne _ _ _ _
        (fun he => h p (List.mem_cons_self _ _) he.symm)

theorem rebuildKeyboardMap_static_tab (t : Table)
    (hmem : "cancel" ∈ t.map (·.1) ∧ "confirm" ∈ t.map (·.1)
      ∧ "dash" ∈ t.map (·.1) ∧ "cycle_left" ∈ t.map (·.1)
      ∧ "cycle_right" ∈ t.map (·.1))
    (hTab : ∀ p ∈ t, p.2.keyboardButton.toKey ≠ "Tab") :
    ∃ m, rebuildKeyboardMap t = some m ∧
      kmGet m "Tab" = some ["static_tab"] := by
  obtain ⟨h1, h2, h3, h4, h5⟩ := hmem
  obtain ⟨fc, hfc⟩ := Option.isSome_iff_exists.mp (lookup_isSome_of_mem_keys h1)
  obtain ⟨fo, hfo⟩ := Option.isSome_iff_exists.mp (lookup_isSome_of_mem_keys h2)
  obtain ⟨fd, hfd⟩ := Option.isSome_iff_exists.mp (lookup_isSome_of_mem_keys h3)
  obtain ⟨fl, hfl⟩ := Option.isSome_iff_exists.mp (lookup_isSome_of_mem_keys h4)
  obtain ⟨fr, hfr⟩ := Option.isSome_iff_exists.mp (lookup_isSome_of_mem_keys h5)
  have nfc : "Tab" ≠ fc.keyboardButton.toKey :=
    fun he => hTab ("cancel", fc) (mem_of_lookup_eq_some hfc) he.symm
  have nfo : "Tab" ≠ fo.keyboardButton.toKey :=
    fun he => hTab ("confirm", fo) (mem_of_lookup_eq_some hfo) he.symm
  have nfd : "Tab" ≠ fd.keyboardButton.toKey :=
    fun he => hTab ("dash", fd) (mem_of_lookup_eq_some hfd) he.symm
  have nfl : "Tab" ≠ fl.keyboardButton.toKey :=
    fun he => hTab ("cycle_left", fl) (mem_of_lookup_eq_some hfl) he.symm
  have nfr : "Tab" ≠ fr.keyboardButton.toKey :=
    fun he => hTab ("cycle_right", fr) (mem_of_lookup_eq_some hfr) he.symm
  have hsome : ∃ m, rebuildKeyboardMap t = some m := by
    unfold rebuildKeyboardMap
    rw [hfc, hfo, hfd, hfl, hfr]
    exact ⟨_, rfl⟩
  obtain ⟨m, hm⟩ := hsome
  refine ⟨m, hm, ?_⟩
  unfold rebuildKeyboardMap at hm
  rw [hfc, hfo, hfd, hfl, hfr] at hm
  dsimp only at hm
  replace hm := Option.some.inj hm
  rw [← hm]
  · rw [kmGet_kmSet_ne _ _ _ _ nfr, kmGet_kmSet_ne _ _ _ _ nfl,
        kmGet_kmSet_ne _ _ _ _ nfd, kmGet_kmPush_ne _ _ _ _ nfo,
        kmGet_kmSet_ne _ _ _ _ nfo, kmGet_kmSet_ne _ _ _ _ nfc]
    have hm0 : kmGet
        (t.foldl (fun m p => kmSet m p.2.keyboardButton.toKey [p.1]) [])
        "Tab" = none := by
      rw [kmGet_buildLoop_of_ne t [] "Tab" hTab]
      rfl
    rw [hm0]
    simp only [Option.isSome_none, Bool.false_eq_true, if_false]
    have hTabm1 : kmGet (kmSet
        (t.foldl (fun m p => kmSet m p.2.keyboardButton.toKey [p.1]) [])
        "Tab" ["static_tab"]) "Tab" = some ["static_tab"] :=
      kmGet_kmSet_self _ _ _
    by_cases hesc : (kmGet (kmSet
        (t.foldl (fun m p => kmSet m p.2.keyboardButton.toKey [p.1]) [])
        "Tab" ["static_tab"]) "Escape").isSome
    · rw [if_pos hesc]
      exact hTabm1
    · rw [if_neg hesc,
        kmGet_kmSet_ne _ _ _ _ (by decide : ("Tab" : String) ≠ "Escape")]
      exact hTabm1

theorem rebuildKeyboardMap_static_escape (t : Table)
    (hmem : "cancel" ∈ t.map (·.1) ∧ "confirm" ∈ t.map (·.1)
      ∧ "dash" ∈ t.map (·.1) ∧ "cycle_left" ∈ t.map (·.1)
      ∧ "cycle_right" ∈ t.map (·.1))
    (hEsc : ∀ p ∈ t, p.2.keyboardButton.toKey ≠ "Escape") :
    ∃ m, rebuildKeyboardMap t = some m ∧
      kmGet m "Escape" = some ["static_escape"] := by
  obtain ⟨h1, h2, h3, h4, h5⟩ := hmem
  obtain ⟨fc, hfc⟩ := Option.isSome_iff_exists.mp (lookup_isSome_of_mem_keys h1)
  obtain ⟨fo, hfo⟩ := Option.isSome_iff_exists.mp (lookup_isSome_of_mem_keys h2)
  obtain ⟨fd, hfd⟩ := Option.isSome_iff_exists.mp (lookup_isSome_of_mem_keys h3)
  obtain ⟨fl, hfl⟩ := Option.isSome_iff_exists.mp (lookup_isSome_of_mem_keys h4)
  obtain ⟨fr, hfr⟩ := Option.isSome_iff_exists.mp (lookup_isSome_of_mem_keys h5)
  have nfc : "Escape" ≠ fc.keyboardButton.toKey :=
    fun he => hEsc ("cancel", fc) (mem_of_lookup_eq_some hfc) he.symm
  have nfo : "Escape" ≠ fo.keyboardButton.toKey :=
    fun he => hEsc ("confirm", fo) (mem_of_lookup_eq_some hfo) he.symm
  have nfd : "Escape" ≠ fd.keyboardButton.toKey :=
    fun he => hEsc ("dash", fd) (mem_of_lookup_eq_some hfd) he.symm
  have nfl : "Escape" ≠ fl.keyboardButton.toKey :=
    fun he => hEsc ("cycle_left", fl) (mem_of_lookup_eq_some hfl) he.symm
  have nfr : "Escape" ≠ fr.keyboardButton.toKey :=
    fun he => hEsc ("cycle_right", fr) (mem_of_lookup_eq_some hfr) he.symm
  have hsome : ∃ m, rebuildKeyboardMap t = some m := by
    unfold rebuildKeyboardMap
    rw [hfc, hfo, hfd, hfl, hfr]
    exact ⟨_, rfl⟩
  obtain ⟨m, hm⟩ := hsome
  refine ⟨m, hm, ?_⟩
  unfold rebuildKeyboardMap at hm
  rw [hfc, hfo, hfd, hfl, hfr] at hm
  dsimp only at hm
  replace hm := Option.some.inj hm
  rw [← hm]
  · rw [kmGet_kmSet_ne _ _ _ _ nfr, kmGet_kmSet_ne _ _ _ _ nfl,
        kmGet_kmSet_ne _ _ _ _ nfd, kmGet_kmPush_ne _ _ _ _ nfo,
        kmGet_kmSet_ne _ _ _ _ nfo, kmGet_kmSet_ne _ _ _ _ nfc]
    have hm0 : kmGet
        (t.foldl (fun m p => kmSet m p.2.keyboardButton.toKey [p.1]) [])
        "Escape" = none := by
      rw [kmGet_buildLoop_of_ne t [] "Escape" hEsc]
      rfl
    have hm1 : kmGet
        (if (kmGet (t.foldl (fun m p => kmSet m p.2.keyboardButton.toKey [p.1])
            []) "Tab").isSome
         then t.foldl (fun m p => kmSet m p.2.keyboardButton.toKey [p.1]) []
         else kmSet (t.foldl (fun m p => kmSet m p.2.keyboardButton.toKey [p.1])
            []) "Tab" ["static_tab"]) "Escape" = none := by
      by_cases htab : (kmGet
          (t.foldl (fun m p => kmSet m p.2.keyboardButton.toKey [p.1]) [])
          "Tab").isSome
      · rw [if_pos htab]
        exact hm0
      · rw [if_neg htab,
          kmGet_kmSet_ne _ _ _ _ (by decide : ("Escape" : String) ≠ "Tab")]
        exact hm0
    rw [hm1]
    simp only [Option.isSome_none, Bool.false_eq_true, if_false]
    exact kmGet_kmSet_self _ _ _

theorem resetMapInputs_keys (t : Table) :
    (resetMapInputs t).map (·.1) = t.map (·.1) := by
  unfold resetMapInputs
  rw [List.map_map]
  rfl

theorem resetMapInputs_no_key (t : Table) (key : String)
    (h : ∀ p ∈ t, p.2.defaultKeyboardButton.toKey ≠ key) :
    ∀ p ∈ resetMapInputs t, p.2.keyboardButton.toKey ≠ key := by
  intro p hp
  obtain ⟨q, hq, rfl⟩ := List.mem_map.mp hp
  exact h q hq

theorem tblInv_default_kb_ne {t : Table} (h : TblInv t) (key : String)
    (hk : ∀ x ∈ defaultInputs.map
        (fun p => (p.1, p.2.defaultKeyboardButton, p.2.defaultGamepButton)),
      x.2.1.toKey ≠ key) :
    ∀ q ∈ t, q.2.defaultKeyboardButton.toKey ≠ key := by
  intro q hq
  have hx : (q.1, q.2.defaultKeyboardButton, q.2.defaultGamepButton)
      ∈ defaultInputs.map
        (fun p => (p.1, p.2.defaultKeyboardButton, p.2.defaultGamepButton)) := by
    rw [← h.defaults]
    exact List.mem_map_of_mem _ hq
  exact hk _ hx

/-- C2 counterexample: rebinding the existing function `menu`'s keyboard
slot to the `Tab` key and rebuilding, the keyboard lookup map contains no
`static_tab` entry anywhere (the `Tab` key now maps to `menu` only), so
the reserved static name does not remain present after this rebind. -/
theorem static_failsafe_counterexample :
    (defaultInputs.lookup "menu").isSome = true ∧
    (rebuildKeyboardMap (setControlButton defaultInputs "menu"
        (JsVal.str "Tab") Slot.keyboardButton)).isSome = true ∧
    ((rebuildKeyboardMap (setControlButton defaultInputs "menu"
        (JsVal.str "Tab") Slot.keyboardButton)).getD []).all
      (fun p => !(p.2.contains "static_tab")) = true ∧
    kmGet ((rebuildKeyboardMap (setControlButton defaultInputs "menu"
        (JsVal.str "Tab") Slot.keyboardButton)).getD []) "Tab"
      = some ["menu"] := by
  refine ⟨by decide, by decide, by decide, by decide⟩

/-- C2 (amended): after any sequence of rebinds from the default table,
the rebuilt keyboard map carries `Tab ↦ [static_tab]` provided no
function's current keyboard binding is the `Tab` key, and
`Escape ↦ [static_escape]` provided none is the `Escape` key (the source
only adds each failsafe entry when its key is not already bound); after
`resetMap` both static entries are always present, because the default
bindings never use `Tab` or `Escape`. -/
theorem static_failsafe_amended (cmds : List RebindCmd) :
    ((∀ p ∈ applyRebinds defaultInputs cmds,
        p.2.keyboardButton.toKey ≠ "Tab") →
      ∃ m, rebuildKeyboardMap (applyRebinds defaultInputs cmds) = some m ∧
        kmGet m "Tab" = some ["static_tab"]) ∧
    ((∀ p ∈ applyRebinds defaultInputs cmds,
        p.2.keyboardButton.toKey ≠ "Escape") →
      ∃ m, rebuildKeyboardMap (applyRebinds defaultInputs cmds) = some m ∧
        kmGet m "Escape" = some ["static_escape"]) ∧
    (∃ m, rebuildKeyboardMap (resetMapInputs (applyRebinds defaultInputs cmds))
        = some m ∧
      kmGet m "Tab" = some ["static_tab"] ∧
      kmGet m "Escape" = some ["static_escape"]) := by
  have h := tblInv_applyRebinds cmds tblInv_defaultInputs
  have hmem : "cancel" ∈ (applyRebinds defaultInputs cmds).map (·.1) ∧
      "confirm" ∈ (applyRebinds defaultInputs cmds).map (·.1) ∧
      "dash" ∈ (applyRebinds defaultInputs cmds).map (·.1) ∧
      "cycle_left" ∈ (applyRebinds defaultInputs cmds).map (·.1) ∧
      "cycle_right" ∈ (applyRebinds defaultInputs cmds).map (·.1) := by
    rw [h.keys]
    refine ⟨by decide, by decide, by decide, by decide, by decide⟩
  refine ⟨fun hTab => rebuildKeyboardMap_static_tab _ hmem hTab,
          fun hEsc => rebuildKeyboardMap_static_escape _ hmem hEsc, ?_⟩
  have hmem2 : "cancel" ∈ (resetMapInputs (applyRebinds defaultInputs cmds)).map (·.1) ∧
      "confirm" ∈ (resetMapInputs (applyRebinds defaultInputs cmds)).map (·.1) ∧
      "dash" ∈ (resetMapInputs (applyRebinds defaultInputs cmds)).map (·.1) ∧
      "cycle_left" ∈ (resetMapInputs (applyRebinds defaultInputs cmds)).map (·.1) ∧
      "cycle_right" ∈ (resetMapInputs (applyRebinds defaultInputs cmds)).map (·.1) := by
    rw [resetMapInputs_keys, h.keys]
    refine ⟨by decide, by decide, by decide, by decide, by decide⟩
  have hTab2 := resetMapInputs_no_key _ "Tab"
    (tblInv_default_kb_ne h "Tab" (by decide))
  have hEsc2 := resetMapInputs_no_key _ "Escape"
    (tblInv_default_kb_ne h "Escape" (by decide))
  obtain ⟨m1, hm1, hTabGet⟩ :=
    rebuildKeyboardMap_static_tab _ hmem2 hTab2
  obtain ⟨m2, hm2, hEscGet⟩ :=
    rebuildKeyboardMap_static_escape _ hmem2 hEsc2
  have hmm : m1 = m2 := Option.some.inj (hm1.symm.trans hm2)
  exact ⟨m1, hm1, hTabGet, hmm ▸ hEscGet⟩

/-- Witness for the amended C2: with zero rebinds all hypotheses hold and
both static entries are present. -/
theorem static_failsafe_amended_witness :
    (∀ p ∈ applyRebinds defaultInputs [], p.2.keyboardButton.toKey ≠ "Tab") ∧
    (∃ m, rebuildKeyboardMap (applyRebinds defaultInputs []) = some m ∧
      kmGet m "Tab" = some ["static_tab"]) ∧
    (∃ m, rebuildKeyboardMap (resetMapInputs (applyRebinds defaultInputs []))
        = some m ∧
      kmGet m "Tab" = some ["static_tab"] ∧
      kmGet m "Escape" = some ["static_escape"]) :=
  ⟨by decide, (static_failsafe_amended []).1 (by decide),
   (static_failsafe_amended []).2.2⟩

/-! ### The full runtime state -/

/-- A press or release edge, the `type` strings of the gamepad capture
protocol. -/
inductive Edge where
  | press
  | release
deriving DecidableEq, Repr

/-- Defunctionalised gamepad-capture callbacks.  `handler id` is an
opaque caller handler, observed through the invocation log;
`thenArmRelease inner` is the remap scene's press callback, which only
re-arms the capture for the following release
(`Scene_SQControls.startRemap`). -/
inductive GpCb where
  | handler (id : Nat)
  | thenArmRelease (inner : GpCb)
deriving DecidableEq, Repr

/-- A DOM keyboard event: the `code` string and the legacy numeric
`keyCode` (the source also reads `event.which`, the same legacy id). -/
structure KeyEvent where
  code : String
  keyCode : Int
deriving DecidableEq, Repr

/-- One entry of `navigator.getGamepads()`. -/
structure Gamepad where
  index : Nat
  id : String
  buttons : List Bool
  axes : List Rat
deriving DecidableEq, Repr

/-- `Input.gamepadMapper` as rebuilt by the plugin: a JS array from button
index to array of logical names (holes are absent keys). -/
abbrev GMap := List (Nat × List String)

/-- Generic JS object/array keyed write: replace in place when the key
exists, append otherwise. -/
def assocSet {α β : Type} [BEq α] [DecidableEq α] (m : List (α × β)) (k : α)
    (v : β) : List (α × β) :=
  if (m.lookup k).isSome then m.map (fun p => if p.1 = k then (p.1, v) else p)
  else m ++ [(k, v)]

/-- Array read `m[j]`. -/
def gmGet (m : GMap) (j : Nat) : Option (List String) := m.lookup j

/-- `if (!(j in m)) m[j] = []; m[j].push(name)`. -/
def gmEnsurePush (m : GMap) (j : Nat) (name : String) : GMap :=
  let m1 := if (gmGet m j).isSome then m else assocSet m j []
  m1.map (fun p => if p.1 = j then (p.1, p.2 ++ [name]) else p)

/-- The canonical array index denoted by a JS property key, if any:
non-negative integer values, and strings in canonical decimal form.
Other keys become plain string properties on the array object, which
none of the embedded code ever reads back. -/
def JsVal.arrayIndex : JsVal → Option Nat
  | .num n => if n < 0 then none else some n.toNat
  | .str s =>
      match s.toNat? with
      | some n => if toString n = s then some n else none
      | none => none

/-- The gamepad half of `SQInput.rebuildButtonMapper`: one pushed name
per function at its button index, merge of the sixteen base-mapper keys,
then the `cancel` / `confirm`(+`ok`) / `shift` overrides.  Returns `none`
when a built-in name the source dereferences is missing. -/
def rebuildGamepadMap (t : Table) : Option GMap :=
  match t.lookup "cancel", t.lookup "confirm", t.lookup "dash" with
  | some fCancel, some fConfirm, some fDash =>
      let m0 := t.foldl (fun m p =>
        match p.2.gamepadButton.arrayIndex with
        | some j => gmEnsurePush m j p.1
        | none => m) []
      let m1 := (List.range 16).foldl
        (fun m j => if (gmGet m j).isSome then m else assocSet m j []) m0
      let m2 := match fCancel.gamepadButton.arrayIndex with
        | some j => assocSet m1 j ["cancel"]
        | none => m1
      let m3 := match fConfirm.gamepadButton.arrayIndex with
        | some j => assocSet m2 j ["confirm"]
        | none => m2
      let m4 := match fConfirm.gamepadButton.arrayIndex with
        | some j => m3.map (fun p => if p.1 = j then (p.1, p.2 ++ ["ok"]) else p)
        | none => m3
      let m5 := match fDash.gamepadButton.arrayIndex with
        | some j => assocSet m4 j ["shift"]
        | none => m4
      some m5
  | _, _, _ => none

/-- The mutable singletons of the plugin and of the engine's `Input`
module, gathered into one record.  `kbLog` / `gpLog` are observation
logs recording capture-handler invocations (a model artifact; the JS
calls the stored closures there).  Engine fields the embedded code never
reads (`_dir4`, `_dir8`, `_preferredAxis`, `_date`) are omitted. -/
structure SysState where
  inputs : Table
  keyMapper : KMap
  gamepadMapper : GMap
  currentState : List (String × Bool)
  previousState : List (String × Bool)
  latestButton : Option (List String)
  pressedTime : Nat
  virtualButton : Option String
  gamepadStates : List (Nat × List (Option Bool))
  gamepadAxes : List (Nat × ((Rat × Rat) × (Rat × Rat)))
  activeButtonSet : Int
  numButtonSets : Int
  targetGamepadName : Option String
  activeGamepadIndex : Option Nat
  lastInputDevice : String
  kbCaptureCb : Option Nat
  gpCaptureCb : Option GpCb
  gpCaptureType : Option Edge
  kbLog : List (Nat × KeyEvent)
  gpLog : List (Nat × Nat × Edge)
  resetMapFlag : Bool
  connected : List (Option Gamepad)

/-- `Input.clear` as overridden by the plugin.  The source's second loop
iterates the keys of `_previousState` but writes `_currentState` (so the
previous state is never actually reset); we reproduce that slip. -/
def inputClear (st : SysState) : SysState :=
  let cur0 := st.currentState.map (fun p => (p.1, false))
  let cur1 := st.previousState.foldl (fun c p => assocSet c p.1 false) cur0
  { st with currentState := cur1
            gamepadStates := []
            latestButton := none
            pressedTime := 0
            virtualButton := none }

/-- `SQInput.rebuildButtonMapper` at the state level: install the two
fresh mappers and clear the input state.  For a table missing a built-in
name the source would throw; that branch is unreachable from the states
considered here and leaves the state unchanged. -/
def applyMappers (st : SysState) : SysState :=
  match rebuildKeyboardMap st.inputs, rebuildGamepadMap st.inputs with
  | some km, some gm => inputClear { st with keyMapper := km, gamepadMapper := gm }
  | _, _ => st

/-! ### Capture protocol and active-device tracking -/

/-- `SQInput.onNextKeyboardInput`. -/
def onNextKeyboardInput (st : SysState) (id : Nat) : SysState :=
  { st with kbCaptureCb := some id }

/-- `SQInput.cancelOnNextKeyboardInput`. -/
def cancelOnNextKeyboardInput (st : SysState) : SysState :=
  { st with kbCaptureCb := none }

/-- `SQInput.nextKeyboardInputHandler`: invoke and clear an armed keyboard
capture (the source invokes the closure and then nulls the slot; with the
effect-free handlers modelled here the two orders agree), then record the
keyboard as the last-used device. -/
def nextKeyboardInputHandler (st : SysState) (ev : KeyEvent) : SysState :=
  let st1 :=
    match st.kbCaptureCb with
    | some id => { st with kbLog := st.kbLog ++ [(id, ev)], kbCaptureCb := none }
    | none => st
  { st1 with lastInputDevice := "keyboard" }

/-- `SQInput.onNextGamepadRelease`. -/
def onNextGamepadRelease (st : SysState) (cb : GpCb) : SysState :=
  { st with gpCaptureCb := some cb, gpCaptureType := some Edge.release }

/-- `SQInput.onNextGamepadPress` (also `SQInput.onNextGamepadInput`). -/
def onNextGamepadPress (st : SysState) (cb : GpCb) : SysState :=
  { st with gpCaptureCb := some cb, gpCaptureType := some Edge.press }

/-- `SQInput.cancelOnNextGamepadInput`. -/
def cancelOnNextGamepadInput (st : SysState) : SysState :=
  { st with gpCaptureCb := none, gpCaptureType := none }

/-- Effect of invoking a stored gamepad callback. -/
def runGpCb (cb : GpCb) (buttonIndex : Nat) (t : Edge) (st : SysState) :
    SysState :=
  match cb with
  | .handler id => { st with gpLog := st.gpLog ++ [(id, buttonIndex, t)] }
  | .thenArmRelease inner => onNextGamepadRelease st inner

/-- First position in `navigator.getGamepads()` whose device carries the
given identity string. -/
def findGamepadByName (connected : List (Option Gamepad)) (name : String) :
    Option Nat :=
  (connected.enum.find? (fun p =>
    match p.2 with
    | some g => g.id == name
    | none => false)).map (·.1)

/-- First connected position in `navigator.getGamepads()`. -/
def firstConnectedIdx (connected : List (Option Gamepad)) : Option Nat :=
  (connected.enum.find? (fun p => p.2.isSome)).map (·.1)

/-- `SQInput.updateActiveGamepad`, including its JS truthiness quirks: an
empty preferred name is falsy, and `!this.activeGamepadIndex` is also
true when the selected index is 0. -/
def updateActiveGamepad (st : SysState) : SysState :=
  let st1 :=
    match st.targetGamepadName with
    | some name =>
        if name = "" then st
        else
          match findGamepadByName st.connected name with
          | some idx => { st with activeGamepadIndex := some idx }
          | none => st
    | none => st
  if st1.activeGamepadIndex = none ∨ st1.activeGamepadIndex = some 0 then
    match firstConnectedIdx st1.connected with
    | some idx => { st1 with activeGamepadIndex := some idx }
    | none => st1
  else st1

/-- `SQInput.nextGamepadInputHandler`: when the armed type matches, null
out the stored callback and its type first, then invoke the callback;
afterwards flip the device tracker to the gamepad (re-resolving the
active device on the keyboard-to-gamepad transition). -/
def nextGamepadInputHandler (st : SysState) (buttonIndex : Nat) (t : Edge) :
    SysState :=
  let st1 :=
    match st.gpCaptureCb with
    | some cb =>
        if st.gpCaptureType = some t then
          runGpCb cb buttonIndex t
            { st with gpCaptureCb := none, gpCaptureType := none }
        else st
    | none => st
  if st1.lastInputDevice ≠ "gamepad" then
    { updateActiveGamepad st1 with lastInputDevice := "gamepad" }
  else st1

/-! ### Keyboard events -/

/-- `Input._onKeyDown` as overridden: the numlock branch clears, then the
key's mapped names (under `event.code`, falling back to the legacy
numeric id when `code` is absent) are all driven high.
`_shouldPreventDefault` only touches the DOM. -/
def onKeyDown (st : SysState) (ev : KeyEvent) : SysState :=
  let st1 := if ev.keyCode = 144 then inputClear st else st
  let key := if ev.code ≠ "" then ev.code else toString ev.keyCode
  match kmGet st1.keyMapper key with
  | some names =>
      { st1 with currentState :=
          names.foldl (fun c b => assocSet c b true) st1.currentState }
  | none => st1

/-- `Input._onKeyUp` as overridden. -/
def onKeyUp (st : SysState) (ev : KeyEvent) : SysState :=
  let key := if ev.code ≠ "" then ev.code else toString ev.keyCode
  match kmGet st.keyMapper key with
  | some names =>
      { st with currentState :=
          names.foldl (fun c b => assocSet c b false) st.currentState }
  | none => st

/-- One DOM `keydown` event: the engine delivers it to `Input._onKeyDown`
(registered first, by `Input.initialize`) and then to the plugin's
capture listener `SQInput.nextKeyboardInputHandler`. -/
def deliverKeyDown (st : SysState) (ev : KeyEvent) : SysState :=
  nextKeyboardInputHandler (onKeyDown st ev) ev

/-! ### Per-frame gamepad polling -/

/-- JS sparse-array read: `a[i]` is `undefined` (`none`) past the end or
at a hole. -/
def jsGet (a : List (Option Bool)) (i : Nat) : Option Bool :=
  a.getD i none

/-- JS array write `a[i] = v`, padding any gap with holes. -/
def jsSet (a : List (Option Bool)) (i : Nat) (v : Bool) : List (Option Bool) :=
  if i < a.length then a.set i (some v)
  else a ++ List.replicate (i - a.length) none ++ [some v]

/-- `axes[i]` (`undefined` past the end; every comparison against the
threshold is false on `undefined`, modelled by the `none` branches of the
callers). -/
def axGet (axes : List Rat) (i : Nat) : Option Rat := axes.get? i

/-- The fresh `newState` vector of `SQInput.originalUpdateGamepadState`:
the four synthetic d-pad slots preset to false, every physical button
state written over them, then stick deflections past the 0.5 deadzone
driving the synthetic slots true (the threshold is written as the
normalised rational one half, the value of the source's 0.5). -/
def buildNewState (g : Gamepad) : List (Option Bool) :=
  let s0 := jsSet (jsSet (jsSet (jsSet [] 12 false) 13 false) 14 false) 15 false
  let s1 := g.buttons.enum.foldl (fun a p => jsSet a p.1 p.2) s0
  let threshold : Rat := Rat.mk' 1 2
  let s2 :=
    match axGet g.axes 1 with
    | some a1 =>
        if a1 < -threshold then jsSet s1 12 true
        else if a1 > threshold then jsSet s1 13 true
        else s1
    | none => s1
  let s3 :=
    match axGet g.axes 0 with
    | some a0 =>
        if a0 < -threshold then jsSet s2 14 true
        else if a0 > threshold then jsSet s2 15 true
        else s2
    | none => s2
  s3

/-- Apply every index-by-index transition between the previous and the
fresh state vector to the logical `_currentState`, through the gamepad
mapper (`undefined` entries are skipped; an empty alias list loops zero
times; a written `undefined` is falsy, collapsed here to `false`). -/
def applyGpTransitions (mapper : GMap) (cur : List (String × Bool))
    (lastState newState : List (Option Bool)) : List (String × Bool) :=
  (List.range newState.length).foldl (fun c j =>
    if jsGet newState j ≠ jsGet lastState j then
      match gmGet mapper j with
      | some names =>
          names.foldl (fun c b => assocSet c b ((jsGet newState j).getD false)) c
      | none => c
    else c) cur

/-- `SQInput.originalUpdateGamepadState` (the engine's state update,
copied into the plugin): diff against the stored snapshot, apply all
transitions to logical state, store the fresh snapshot and both stick
readings (a missing axis reading is stored as 0 here; nothing embedded
reads it). -/
def originalUpdateGamepadState (st : SysState) (g : Gamepad) : SysState :=
  let lastState := (st.gamepadStates.lookup g.index).getD []
  let newState := buildNewState g
  { st with
      currentState :=
        applyGpTransitions st.gamepadMapper st.currentState lastState newState
      gamepadStates := assocSet st.gamepadStates g.index newState
      gamepadAxes := assocSet st.gamepadAxes g.index
        (((axGet g.axes 0).getD 0, (axGet g.axes 1).getD 0),
         ((axGet g.axes 2).getD 0, (axGet g.axes 3).getD 0)) }

/-- The first index below the previous snapshot's length at which the two
state vectors differ. -/
def firstTransition (oldS newS : List (Option Bool)) : Option Nat :=
  (List.range oldS.length).find? (fun j => jsGet oldS j != jsGet newS j)

/-- `Input._updateGamepadState` as overridden: resolve the active device
if unresolved, run the state update only for the active gamepad, then
fire the capture/device-tracking handler for the first transition found
(and only that one — the loop breaks).  The second component reports the
handler invocation, if any. -/
def updateGamepadState (st : SysState) (g : Gamepad) :
    SysState × Option (Nat × Edge) :=
  let originalState := (st.gamepadStates.lookup g.index).getD []
  let st0 := if st.activeGamepadIndex = none then updateActiveGamepad st else st
  let st1 := if st0.activeGamepadIndex = some g.index
             then originalUpdateGamepadState st0 g
             else st0
  let newState := (st1.gamepadStates.lookup g.index).getD []
  match firstTransition originalState newState with
  | some j =>
      let e := if jsGet newState j = some true then Edge.press else Edge.release
      (nextGamepadInputHandler st1 j e, some (j, e))
  | none => (st1, none)

/-! ### Per-frame update and the logical-state queries -/

/-- RMMZ engine default `Input.keyRepeatWait`.  Modelled from the spec:
the 24-frame delay is an engine constant, not part of this plugin's
source. -/
def keyRepeatWait : Nat := 24

/-- RMMZ engine default `Input.keyRepeatInterval`.  Modelled from the
spec: the 6-frame interval is an engine constant. -/
def keyRepeatInterval : Nat := 6

/-- `Input._isEscapeCompatible`.  Modelled from the spec: engine helper;
`cancel` and `menu` are the escape-compatible names. -/
def isEscapeCompatible (k : String) : Bool := k == "cancel" || k == "menu"

/-- `Input.isPressed`.  Modelled from the spec: engine query (one
recursion step unfolded — `"escape"` itself is not escape-compatible);
an absent name is falsy. -/
def isPressed (st : SysState) (k : String) : Bool :=
  if isEscapeCompatible k && (st.currentState.lookup "escape").getD false
  then true
  else (st.currentState.lookup k).getD false

/-- `SQInput.isVeryLongPressed`: a 5-second (300-frame) hold. -/
def isVeryLongPressed (st : SysState) (k : String) : Bool :=
  isPressed st k && decide (st.pressedTime ≥ 300)

/-- `Input.isTriggered` as overridden.  `none` models the TypeError the
source throws on `null._latestButton` (after `clear`, before the next
`update`); the escape-compatible branch is unfolded one step, as
`"escape"` is itself not escape-compatible. -/
def isTriggeredE (st : SysState) (k : String) : Option Bool :=
  match st.latestButton with
  | none => none
  | some lb =>
      if isEscapeCompatible k && (lb.contains "escape" && st.pressedTime == 0)
      then some true
      else some (lb.contains k && st.pressedTime == 0)

/-- `Input.isRepeated` as overridden: true on the trigger frame and then
while held whenever the held time reaches `keyRepeatWait` and is a
multiple of `keyRepeatInterval`. -/
def isRepeatedE (st : SysState) (k : String) : Option Bool :=
  match st.latestButton with
  | none => none
  | some lb =>
      let rep := fun (name : String) =>
        lb.contains name &&
          (st.pressedTime == 0 ||
            (decide (st.pressedTime ≥ keyRepeatWait) &&
             st.pressedTime % keyRepeatInterval == 0))
      if isEscapeCompatible k && rep "escape" then some true
      else some (rep k)

/-- The bookkeeping stage of `Input.update`: advance or reset the
pressed-time counter, push every rising logical edge onto
`_latestButton` (rolling current into previous state along the way), and
consume a pending virtual button.  `_updateDirection` and `_date` only
touch state outside this model. -/
def updateCore (st : SysState) : SysState :=
  let lb0 := st.latestButton.getD []
  let held := lb0.length != 0 &&
    (st.currentState.lookup (lb0.headD "")).getD false
  let lb1 := if held then lb0 else []
  let pt1 := if held then st.pressedTime + 1 else st.pressedTime
  let step := st.currentState.foldl
    (fun (acc : List String × Nat × List (String × Bool)) p =>
      let rising := p.2 && !((acc.2.2.lookup p.1).getD false)
      (if rising then acc.1 ++ [p.1] else acc.1,
       if rising then 0 else acc.2.1,
       assocSet acc.2.2 p.1 p.2))
    (lb1, pt1, st.previousState)
  let vstep :=
    match st.virtualButton with
    | some v =>
        if v = "" then (step.1, step.2.1, st.virtualButton)
        else ([v], 0, none)
    | none => (step.1, step.2.1, st.virtualButton)
  { st with latestButton := some vstep.1
            pressedTime := vstep.2.1
            previousState := step.2.2
            virtualButton := vstep.2.2 }

/-- The failsafe stage of `Input.update`: when both Escape (or
`static_escape`) and Tab (or `static_tab`) have been very long pressed,
reset the whole control map once per hold. -/
def failsafeCheck (st1 : SysState) : SysState :=
  let longPressEscape := isVeryLongPressed st1 "escape" ||
    isVeryLongPressed st1 "static_escape"
  let longPressTab := isVeryLongPressed st1 "tab" ||
    isVeryLongPressed st1 "static_tab"
  if longPressEscape && longPressTab && !st1.resetMapFlag then
    let st2 := applyMappers { st1 with inputs := resetMapInputs st1.inputs }
    { st2 with resetMapFlag := true }
  else if !longPressEscape || !longPressTab then
    { st1 with resetMapFlag := false }
  else st1

/-- `Input.update` as overridden by the plugin: poll the frame's
gamepads, run the bookkeeping stage, then the failsafe stage.
`_pollGamepads` is engine code, modelled from the spec as running
`_updateGamepadState` on each gamepad connected this frame. -/
def inputUpdate (pads : List Gamepad) (st : SysState) : SysState :=
  failsafeCheck
    (updateCore (pads.foldl (fun s g => (updateGamepadState s g).1) st))

/-! ### Configuration round-trip -/

/-- The `SQConfig` record written by `ConfigManager.makeData` and read by
`ConfigManager.applyData`. -/
structure SQConfigData where
  buttonSet : Int
  gamepadName : Option String
  controlMap : List (String × JsVal × JsVal)
deriving DecidableEq, Repr

/-- `SQInput.getControlMap`: the keyboard and gamepad button of every
function, in table order. -/
def getControlMap (t : Table) : List (String × JsVal × JsVal) :=
  t.map (fun p => (p.1, p.2.keyboardButton, p.2.gamepadButton))

/-- `SQInput.setControlMap` restricted to the table: for each saved name
present in the table, restore both buttons (the trailing
`rebuildButtonMapper` is modelled separately). -/
def setControlMapInputs (t : Table) (m : List (String × JsVal × JsVal)) :
    Table :=
  m.foldl (fun acc e =>
    match acc.lookup e.1 with
    | some _ => acc.map (fun p =>
        if p.1 = e.1 then
          (p.1, { p.2 with keyboardButton := e.2.1, gamepadButton := e.2.2 })
        else p)
    | none => acc) t

/-- `ConfigManager.makeData`'s `SQConfig` record. -/
def makeData (st : SysState) : SQConfigData :=
  { buttonSet := st.activeButtonSet
    gamepadName := st.targetGamepadName
    controlMap := getControlMap st.inputs }

/-- RMMZ `Number.prototype.clamp`. -/
def intClamp (x lo hi : Int) : Int := min (max x lo) hi

/-- `SQInput.changeButtonSet`: assign, then `%= numButtonSets` (JS `%` is
the truncating remainder). -/
def changeButtonSet (st : SysState) (setIndex : Int) : SysState :=
  { st with activeButtonSet := Int.tmod setIndex st.numButtonSets }

/-- `SQInput.setTargetGamepadName`. -/
def setTargetGamepadName (st : SysState) (name : Option String) : SysState :=
  { st with targetGamepadName := name }

/-- `SQInput.setControlMap` at the state level (the `if (map)` guard is
truthy for every record `makeData` produces). -/
def setControlMap (st : SysState) (m : List (String × JsVal × JsVal)) :
    SysState :=
  applyMappers { st with inputs := setControlMapInputs st.inputs m }

/-- `ConfigManager.applyData` restricted to the plugin's `SQConfig`
record.  The three `"…" in sqConfig` guards take their present branch
(`makeData` always writes all three keys), and `parseInt(x || 0)` is the
identity on the integer button-set values round-tripped here. -/
def applyData (st : SysState) (cfg : SQConfigData) : SysState :=
  let buttonSet := intClamp cfg.buttonSet 0 st.numButtonSets
  let st1 := changeButtonSet st buttonSet
  let st2 := setTargetGamepadName st1 cfg.gamepadName
  setControlMap st2 cfg.controlMap

/-! ### Ordinal lookup and icon resolution -/

/-- `SQInput.getInputByIndex`: `Object.keys(this.inputs)[index]`, then an
object read; past the end the key expression is `undefined`, so the JS
actually reads the property named `"undefined"`. -/
def getInputByIndex (t : Table) (index : Nat) : Option ControlInput :=
  match (t.map (·.1)).get? index with
  | some k => t.lookup k
  | none => t.lookup "undefined"

/-- `SQInput.codeToIconIndex` (the commented-out duplicate keys of the
source literal are omitted, as JS ignores comments; the `null` and `231`
keys coerce to the strings `"null"` and `"231"`). -/
def codeToIconIndex : List (String × Nat) :=
  [ ("ArrowLeft", 0), ("ArrowUp", 1), ("ArrowRight", 2), ("ArrowDown", 3),
    ("null", 0), ("Enter", 1), ("Space", 2), ("ControlLeft", 3),
    ("ControlRight", 3), ("ShiftLeft", 4), ("ShiftRight", 4), ("AltLeft", 5),
    ("AltRight", 5), ("Tab", 6), ("Backspace", 7), ("Insert", 8),
    ("Delete", 9), ("Home", 10), ("End", 11), ("PageUp", 12),
    ("PageDown", 13), ("CapsLock", 14), ("Pause", 15),
    ("Digit0", 16), ("Digit1", 17), ("Digit2", 18), ("Digit3", 19),
    ("Digit4", 20), ("Digit5", 21), ("Digit6", 22), ("Digit7", 23),
    ("Digit8", 24), ("Digit9", 25),
    ("Numpad0", 16), ("Numpad1", 17), ("Numpad2", 18), ("Numpad3", 19),
    ("Numpad4", 20), ("Numpad5", 21), ("Numpad6", 22), ("Numpad7", 23),
    ("Numpad8", 24), ("Numpad9", 25),
    ("Slash", 27), ("Equal", 28), ("Minus", 29),
    ("KeyA", 32), ("KeyB", 33), ("KeyC", 34), ("KeyD", 35), ("KeyE", 36),
    ("KeyF", 37), ("KeyG", 38), ("KeyH", 39), ("KeyI", 40), ("KeyJ", 41),
    ("KeyK", 42), ("KeyL", 43), ("KeyM", 44), ("KeyN", 45), ("KeyO", 46),
    ("KeyP", 47), ("KeyQ", 48), ("KeyR", 49), ("KeyS", 50), ("KeyT", 51),
    ("KeyU", 52), ("KeyV", 53), ("KeyW", 54), ("KeyX", 55), ("KeyY", 56),
    ("KeyZ", 57), ("231", 58),
    ("Backslash", 65), ("BracketLeft", 66), ("BracketRight", 67),
    ("Comma", 72), ("Period", 73), ("Quote", 74), ("Backquote", 75),
    ("Semicolon", 85), ("Escape", 95) ]

/-- `SQInput.gamepadIndexToIconIndex`. -/
def gamepadIndexToIconIndex : List (Nat × Nat) :=
  [ (14, 0), (12, 1), (15, 2), (13, 3), (10, 4), (11, 5), (9, 6), (8, 7),
    (3, 8), (1, 9), (0, 10), (2, 11), (4, 12), (5, 13), (6, 14), (7, 15) ]

/-- JS property read of `gamepadIndexToIconIndex[v]` (keys coerce to
canonical decimal strings, matching numbers and canonical numeric
strings alike). -/
def gamepadIconLookup (v : JsVal) : Option Nat :=
  match v.arrayIndex with
  | some j => gamepadIndexToIconIndex.lookup j
  | none => none

/-- `SQInput.buttonSetSize`. -/
def buttonSetSize : Nat := 16

/-- `SQInput.maxButtonSets`. -/
def maxButtonSets : Nat := 4

/-- `SQInput.defaultButtonIcon`, as a function of the configured
`iconOffset` (`SQInput.baseControlIconIndex`). -/
def defaultButtonIcon (base : Nat) : Nat := base + buttonSetSize * maxButtonSets

/-- `SQInput.getKeyboardControlIconIndex`.  `none` models an invalid
result: `NaN` from adding the `undefined` of an unmapped key code (and
the TypeError `startsWith` would raise on a numeric binding). -/
def getKeyboardControlIconIndex (base : Nat) (t : Table) (param : String) :
    Option Int :=
  match t.lookup param with
  | none => none
  | some f =>
      match f.keyboardButton with
      | .str kb =>
          match codeToIconIndex.lookup kb with
          | some i =>
              some ((base + buttonSetSize * maxButtonSets + i : Int)
                - (if kb.startsWith "Arrow" then 64 else 0))
          | none => none
      | .num _ => none

/-- `SQInput.getGamepadControlIconIndex`.  `none` models the `NaN` that
an unmapped button index produces. -/
def getGamepadControlIconIndex (base : Nat) (set : Int) (t : Table)
    (param : String) : Option Int :=
  match t.lookup param with
  | none => none
  | some f =>
      match gamepadIconLookup f.gamepadButton with
      | some bi => some ((base : Int) + buttonSetSize * set + bi)
      | none => none

/-- The `KB` branch of `Window_Base.obtainEscapeCodeIconIndex`: start at
the designated fallback `defaultButtonIcon`, special-case the four arrow
codes onto button set 0's arrow glyphs, otherwise look the code up. -/
def obtainKBIconIndex (base : Nat) (param : String) : Int :=
  let arrowCodes := ["ArrowLeft", "ArrowUp", "ArrowRight", "ArrowDown"]
  if arrowCodes.contains param then
    (base : Int) + arrowCodes.indexOf param
  else
    match codeToIconIndex.lookup param with
    | some i => (base : Int) + buttonSetSize * maxButtonSets + i
    | none => defaultButtonIcon base

/-! ### Events and reachability -/

/-- The externally driven events of the input system: DOM key events, the
per-frame engine update (with that frame's connected gamepads), the
engine's `Input.clear`, the UI-driven table mutations, capture arming and
cancelling, and gamepad (dis)connect notifications. -/
inductive Ev where
  | keyDown (e : KeyEvent)
  | keyUp (e : KeyEvent)
  | frame (pads : List Gamepad)
  | clearEv
  | rebind (control : String) (v : JsVal) (s : Slot)
  | resetEv
  | armKb (id : Nat)
  | cancelKb
  | armGpPress (cb : GpCb)
  | armGpRelease (cb : GpCb)
  | cancelGp
  | connectionEv (pads : List (Option Gamepad))

/-- Apply one event (`rebind` mirrors `SQInput.setControlButton`'s early
return: no rebuild when the control is unknown; `connectionEv` mirrors
the `gamepadconnected` / `gamepaddisconnected` listeners). -/
def applyEv (st : SysState) : Ev → SysState
  | .keyDown e => deliverKeyDown st e
  | .keyUp e => onKeyUp st e
  | .frame pads => inputUpdate pads st
  | .clearEv => inputClear st
  | .rebind c v s =>
      if (st.inputs.lookup c).isSome then
        applyMappers { st with inputs := setControlButton st.inputs c v s }
      else st
  | .resetEv => applyMappers { st with inputs := resetMapInputs st.inputs }
  | .armKb id => onNextKeyboardInput st id
  | .cancelKb => cancelOnNextKeyboardInput st
  | .armGpPress cb => onNextGamepadPress st cb
  | .armGpRelease cb => onNextGamepadRelease st cb
  | .cancelGp => cancelOnNextGamepadInput st
  | .connectionEv pads => updateActiveGamepad { st with connected := pads }

/-- The boot state: `Input.initialize` (whose engine part ends in a
`clear`) followed by `SQInput.initialize` / `initCustomControls` with no
custom controls, whose trailing `rebuildButtonMapper` installs the two
mappers and clears again. -/
def initState : SysState :=
  applyMappers
    { inputs := defaultInputs
      keyMapper := []
      gamepadMapper := []
      currentState := []
      previousState := []
      latestButton := none
      pressedTime := 0
      virtualButton := none
      gamepadStates := []
      gamepadAxes := []
      activeButtonSet := 0
      numButtonSets := 4
      targetGamepadName := none
      activeGamepadIndex := none
      lastInputDevice := "keyboard"
      kbCaptureCb := none
      gpCaptureCb := none
      gpCaptureType := none
      kbLog := []
      gpLog := []
      resetMapFlag := false
      connected := [] }

/-- The states the input system can reach from boot under any event
sequence. -/
inductive Reachable : SysState → Prop where
  | init : Reachable initState
  | step {st : SysState} (ev : Ev) : Reachable st → Reachable (applyEv st ev)

/-! ### Generic fold and map preservation lemmas -/

theorem foldl_preserve {σ α : Type} (Q : σ → Prop) (f : σ → α → σ)
    (l : List α) (init : σ) (h0 : Q init)
    (hstep : ∀ s a, a ∈ l → Q s → Q (f s a)) : Q (l.foldl f init) := by
  induction l generalizing init with
  | nil => exact h0
  | cons x xs ih =>
      exact ih (f init x) (hstep init x (List.mem_cons_self _ _) h0)
        (fun s a ha hq => hstep s a (List.mem_cons_of_mem _ ha) hq)

theorem assocSet_keys_pred {α β : Type} [BEq α] [DecidableEq α]
    (P : α → Prop) (m : List (α × β)) (k : α) (v : β)
    (hm : ∀ p ∈ m, P p.1) (hk : P k) :
    ∀ p ∈ assocSet m k v, P p.1 := by
  intro p hp
  unfold assocSet at hp
  by_cases h : (m.lookup k).isSome
  · rw [if_pos h] at hp
    obtain ⟨q, hq, rfl⟩ := List.mem_map.mp hp
    by_cases hqk : q.1 = k <;> simp [hqk] <;> [exact hk; exact hm q hq]
  · rw [if_neg h] at hp
    rcases List.mem_append.mp hp with h' | h'
    · exact hm p h'
    · simp at h'
      rw [h']
      exact hk

theorem assocSet_vals_pred {α β : Type} [BEq α] [DecidableEq α]
    (P : β → Prop) (m : List (α × β)) (k : α) (v : β)
    (hm : ∀ p ∈ m, P p.2) (hv : P v) :
    ∀ p ∈ assocSet m k v, P p.2 := by
  intro p hp
  unfold assocSet at hp
  by_cases h : (m.lookup k).isSome
  · rw [if_pos h] at hp
    obtain ⟨q, hq, rfl⟩ := List.mem_map.mp hp
    by_cases hqk : q.1 = k <;> simp [hqk] <;> [exact hv; exact hm q hq]
  · rw [if_neg h] at hp
    rcases List.mem_append.mp hp with h' | h'
    · exact hm p h'
    · simp at h'
      rw [h']
      exact hv

theorem lookup_assocSet_self {α β : Type} [BEq α] [LawfulBEq α] [DecidableEq α]
    (m : List (α × β)) (k : α) (v : β) :
    (assocSet m k v).lookup k = some v := by
  unfold assocSet
  by_cases h : (m.lookup k).isSome
  · rw [if_pos h]
    have hmm := lookup_map_modify m k (fun _ => v) k
    rw [if_pos rfl] at hmm
    rw [hmm]
    obtain ⟨w, hw⟩ := Option.isSome_iff_exists.mp h
    rw [hw]
    rfl
  · rw [if_neg h, lookup_append_single]
    rw [Option.not_isSome_iff_eq_none.mp h]
    simp

theorem lookup_assocSet_ne {α β : Type} [BEq α] [LawfulBEq α] [DecidableEq α]
    (m : List (α × β)) (k : α) (v : β) (k' : α) (h : k' ≠ k) :
    (assocSet m k v).lookup k' = m.lookup k' := by
  unfold assocSet
  by_cases hs : (m.lookup k).isSome
  · rw [if_pos hs]
    have hmm := lookup_map_modify m k (fun _ => v) k'
    rw [if_neg h] at hmm
    rw [hmm]
  · rw [if_neg hs, lookup_append_single]
    cases hl : m.lookup k' with
    | some w => rfl
    | none => simp [h]

/-! ### Projection facts for the capture and device-tracking helpers -/

/-- The state components the logical-state invariants watch. -/
def coreFields (st : SysState) :
    Table × List (String × Bool) × List (String × Bool) ×
      Option (List String) × Nat × Option String × KMap × GMap :=
  (st.inputs, st.currentState, st.previousState, st.latestButton,
   st.pressedTime, st.virtualButton, st.keyMapper, st.gamepadMapper)

theorem coreFields_updateActiveGamepad (st : SysState) :
    coreFields (updateActiveGamepad st) = coreFields st := by
  unfold updateActiveGamepad
  dsimp only
  (repeat' split) <;> rfl

theorem coreFields_runGpCb (cb : GpCb) (b : Nat) (t : Edge) (st : SysState) :
    coreFields (runGpCb cb b t st) = coreFields st := by
  cases cb <;> rfl

theorem coreFields_gpTail (s : SysState) :
    coreFields (if s.lastInputDevice ≠ "gamepad"
        then { updateActiveGamepad s with lastInputDevice := "gamepad" }
        else s) = coreFields s := by
  split
  · exact coreFields_updateActiveGamepad s
  · rfl

theorem coreFields_nextGamepadInputHandler (st : SysState) (b : Nat)
    (t : Edge) :
    coreFields (nextGamepadInputHandler st b t) = coreFields st := by
  unfold nextGamepadInputHandler
  cases hcb : st.gpCaptureCb with
  | none =>
      dsimp only
      exact coreFields_gpTail st
  | some cb =>
      dsimp only
      by_cases ht : st.gpCaptureType = some t
      · rw [if_pos ht, coreFields_gpTail, coreFields_runGpCb]
        rfl
      · rw [if_neg ht]
        exact coreFields_gpTail st

theorem coreFields_nextKeyboardInputHandler (st : SysState) (ev : KeyEvent) :
    coreFields (nextKeyboardInputHandler st ev) = coreFields st := by
  unfold nextKeyboardInputHandler
  dsimp only
  split <;> rfl

/-! ### C3: first transition wins -/

theorem gamepadStates_originalUpdate (st : SysState) (g : Gamepad) :
    ((originalUpdateGamepadState st g).gamepadStates.lookup g.index).getD []
      = buildNewState g := by
  unfold originalUpdateGamepadState
  dsimp only
  rw [lookup_assocSet_self]
  rfl

theorem currentState_nextGamepadInputHandler (st : SysState) (b : Nat)
    (t : Edge) :
    (nextGamepadInputHandler st b t).currentState = st.currentState := by
  have h := coreFields_nextGamepadInputHandler st b t
  unfold coreFields at h
  simp only [Prod.mk.injEq] at h
  exact h.2.1

/-- C3: for the active gamepad, the per-frame diff fires the
capture/device-tracking handler exactly at the first (lowest) index of
the previous snapshot's range at which a transition is found, with that
button index and edge kind (press when the new value is true, release
otherwise) — and at no other index — while every transition of the frame
is still applied to the logical current state. -/
theorem first_transition_wins (st : SysState) (g : Gamepad)
    (hact : st.activeGamepadIndex = some g.index) :
    (updateGamepadState st g).2
      = (firstTransition ((st.gamepadStates.lookup g.index).getD [])
          (buildNewState g)).map
          (fun j => (j, if jsGet (buildNewState g) j = some true
                        then Edge.press else Edge.release)) ∧
    (updateGamepadState st g).1.currentState
      = applyGpTransitions st.gamepadMapper st.currentState
          ((st.gamepadStates.lookup g.index).getD []) (buildNewState g) := by
  have hne : ¬ st.activeGamepadIndex = none := by rw [hact]; exact fun h => by cases h
  unfold updateGamepadState
  dsimp only
  rw [if_neg hne, if_pos hact]
  rw [gamepadStates_originalUpdate]
  cases hft : firstTransition ((st.gamepadStates.lookup g.index).getD [])
      (buildNewState g) with
  | none =>
      dsimp only
      exact ⟨rfl, rfl⟩
  | some j =>
      dsimp only
      refine ⟨rfl, ?_⟩
      rw [currentState_nextGamepadInputHandler]
      rfl

/-- The previous frame's gamepad reading: nine buttons, all unpressed,
sticks centred. -/
def c3PadPrev : Gamepad :=
  { index := 0, id := "pad"
    buttons := [false, false, false, false, false, false, false, false, false]
    axes := [0, 0, 0, 0] }

/-- This frame's reading: buttons 6 and 8 both freshly pressed. -/
def c3Pad : Gamepad :=
  { index := 0, id := "pad"
    buttons := [false, false, false, false, false, false, true, false, true]
    axes := [0, 0, 0, 0] }

/-- A steady state on the active gamepad holding the previous snapshot. -/
def c3State : SysState :=
  { initState with activeGamepadIndex := some 0
                   gamepadStates := [(0, buildNewState c3PadPrev)]
                   lastInputDevice := "gamepad" }

/-- Witness for C3: a concrete two-frame scenario on the active gamepad —
buttons 6 and 8 both rise in one frame, the handler reports only
button 6's press, yet both transitions reach the logical state. -/
theorem first_transition_wins_witness :
    ((c3State.activeGamepadIndex = some c3Pad.index) ∧
      (updateGamepadState c3State c3Pad).2 = some (6, Edge.press) ∧
      Option.getD
        (List.lookup "shift" (updateGamepadState c3State c3Pad).1.currentState)
        false = true ∧
      Option.getD
        (List.lookup "cycle_left"
          (updateGamepadState c3State c3Pad).1.currentState) false = true) ∧
    (updateGamepadState c3State c3Pad).2
      = (firstTransition ((c3State.gamepadStates.lookup c3Pad.index).getD [])
          (buildNewState c3Pad)).map
          (fun j => (j, if jsGet (buildNewState c3Pad) j = some true
                        then Edge.press else Edge.release)) ∧
    (updateGamepadState c3State c3Pad).1.currentState
      = applyGpTransitions c3State.gamepadMapper c3State.currentState
          ((c3State.gamepadStates.lookup c3Pad.index).getD [])
          (buildNewState c3Pad) :=
  ⟨⟨by decide, by decide, by decide, by decide⟩,
   (first_transition_wins c3State c3Pad (by decide)).1,
   (first_transition_wins c3State c3Pad (by decide)).2⟩

/-! ### C5: keyboard capture is one-shot -/

theorem onKeyDown_capture_fields (st : SysState) (ev : KeyEvent) :
    (onKeyDown st ev).kbLog = st.kbLog ∧
    (onKeyDown st ev).kbCaptureCb = st.kbCaptureCb := by
  unfold onKeyDown inputClear
  dsimp only
  (repeat' split) <;> exact ⟨rfl, rfl⟩

theorem deliverKeyDown_noCapture (x : SysState) (ev : KeyEvent)
    (hc : (onKeyDown x ev).kbCaptureCb = none) :
    deliverKeyDown x ev
      = { onKeyDown x ev with lastInputDevice := "keyboard" } := by
  unfold deliverKeyDown nextKeyboardInputHandler
  rw [hc]

theorem deliverKeyDown_capture (x : SysState) (ev : KeyEvent) (id : Nat)
    (hc : (onKeyDown x ev).kbCaptureCb = some id) :
    deliverKeyDown x ev =
      { onKeyDown x ev with
        kbLog := (onKeyDown x ev).kbLog ++ [(id, ev)]
        kbCaptureCb := none
        lastInputDevice := "keyboard" } := by
  unfold deliverKeyDown nextKeyboardInputHandler
  rw [hc]

/-- C5: arming a keyboard capture and then delivering two key-down
events invokes the handler exactly once, with the first event; the first
delivery clears the capture slot, and the second event reaches only the
normal state aggregation (`Input._onKeyDown`), plus the device
tracker. -/
theorem keyboard_capture_one_shot (st : SysState) (id : Nat)
    (e1 e2 : KeyEvent) :
    (deliverKeyDown (onNextKeyboardInput st id) e1).kbLog
        = st.kbLog ++ [(id, e1)] ∧
    (deliverKeyDown (onNextKeyboardInput st id) e1).kbCaptureCb = none ∧
    (deliverKeyDown (deliverKeyDown (onNextKeyboardInput st id) e1) e2).kbLog
        = (deliverKeyDown (onNextKeyboardInput st id) e1).kbLog ∧
    deliverKeyDown (deliverKeyDown (onNextKeyboardInput st id) e1) e2
        = { onKeyDown (deliverKeyDown (onNextKeyboardInput st id) e1) e2 with
            lastInputDevice := "keyboard" } := by
  have h1 := onKeyDown_capture_fields (onNextKeyboardInput st id) e1
  have harm : (onNextKeyboardInput st id).kbCaptureCb = some id := rfl
  have harml : (onNextKeyboardInput st id).kbLog = st.kbLog := rfl
  have hcb1 : (onKeyDown (onNextKeyboardInput st id) e1).kbCaptureCb
      = some id := h1.2.trans harm
  have h2 := onKeyDown_capture_fields
    (deliverKeyDown (onNextKeyboardInput st id) e1) e2
  have hcb2 : (onKeyDown (deliverKeyDown (onNextKeyboardInput st id) e1)
      e2).kbCaptureCb = none := by
    rw [h2.2, deliverKeyDown_capture _ _ _ hcb1]
  refine ⟨?_, ?_, ?_, ?_⟩
  · rw [deliverKeyDown_capture _ _ _ hcb1]
    dsimp only
    rw [h1.1, harml]
  · rw [deliverKeyDown_capture _ _ _ hcb1]
  · rw [deliverKeyDown_noCapture _ _ hcb2]
    dsimp only
    exact (onKeyDown_capture_fields _ e2).1
  · exact deliverKeyDown_noCapture _ _ hcb2

/-! ### C10: gamepad capture clears before invoking -/

theorem nextGamepadInputHandler_noCapture (x : SysState) (b : Nat) (t : Edge)
    (hc : x.gpCaptureCb = none) :
    nextGamepadInputHandler x b t
      = (if x.lastInputDevice ≠ "gamepad"
         then { updateActiveGamepad x with lastInputDevice := "gamepad" }
         else x) := by
  unfold nextGamepadInputHandler
  rw [hc]

theorem gpFields_updateActiveGamepad (st : SysState) :
    (updateActiveGamepad st).gpCaptureCb = st.gpCaptureCb ∧
    (updateActiveGamepad st).gpCaptureType = st.gpCaptureType ∧
    (updateActiveGamepad st).gpLog = st.gpLog := by
  unfold updateActiveGamepad
  dsimp only
  (repeat' split) <;> exact ⟨rfl, rfl, rfl⟩

/-- C10: whenever an armed gamepad capture fires (an edge of the armed
type is delivered), the stored callback and its type are cleared before
the callback is invoked: the resulting capture slot is exactly the
callback's own effect applied to the cleared slot.  Consequently a plain
handler fires at most once (a second delivery logs nothing more), and a
capture installed from inside the callback — the remap scene arming for
the release from within its press callback — is preserved rather than
discarded. -/
theorem gamepad_capture_clear_before_invoke (st : SysState) (cb : GpCb)
    (t : Edge) (b : Nat)
    (h1 : st.gpCaptureCb = some cb) (h2 : st.gpCaptureType = some t) :
    ((nextGamepadInputHandler st b t).gpCaptureCb
        = (runGpCb cb b t
            { st with gpCaptureCb := none, gpCaptureType := none }).gpCaptureCb ∧
     (nextGamepadInputHandler st b t).gpCaptureType
        = (runGpCb cb b t
            { st with gpCaptureCb := none, gpCaptureType := none }).gpCaptureType) ∧
    (∀ id, cb = GpCb.handler id →
      (nextGamepadInputHandler st b t).gpCaptureCb = none ∧
      (nextGamepadInputHandler st b t).gpLog = st.gpLog ++ [(id, b, t)] ∧
      ∀ b2 t2, (nextGamepadInputHandler (nextGamepadInputHandler st b t) b2 t2).gpLog
        = (nextGamepadInputHandler st b t).gpLog) ∧
    (∀ inner, cb = GpCb.thenArmRelease inner →
      (nextGamepadInputHandler st b t).gpCaptureCb = some inner ∧
      (nextGamepadInputHandler st b t).gpCaptureType = some Edge.release) := by
  have hgpt : ∀ s : SysState,
      ((if s.lastInputDevice ≠ "gamepad"
        then { updateActiveGamepad s with lastInputDevice := "gamepad" }
        else s) : SysState).gpCaptureCb = s.gpCaptureCb ∧
      ((if s.lastInputDevice ≠ "gamepad"
        then { updateActiveGamepad s with lastInputDevice := "gamepad" }
        else s) : SysState).gpCaptureType = s.gpCaptureType ∧
      ((if s.lastInputDevice ≠ "gamepad"
        then { updateActiveGamepad s with lastInputDevice := "gamepad" }
        else s) : SysState).gpLog = s.gpLog := by
    intro s
    split
    · exact gpFields_updateActiveGamepad s
    · exact ⟨rfl, rfl, rfl⟩
  have hmain : nextGamepadInputHandler st b t
      = (if (runGpCb cb b t
            { st with gpCaptureCb := none, gpCaptureType := none }).lastInputDevice
            ≠ "gamepad"
         then { updateActiveGamepad (runGpCb cb b t
            { st with gpCaptureCb := none, gpCaptureType := none })
              with lastInputDevice := "gamepad" }
         else runGpCb cb b t
            { st with gpCaptureCb := none, gpCaptureType := none }) := by
    unfold nextGamepadInputHandler
    rw [h1]
    dsimp only
    rw [h2, if_pos rfl]
  refine ⟨?_, ?_, ?_⟩
  · rw [hmain]
    exact ⟨(hgpt _).1, (hgpt _).2.1⟩
  · intro id hid
    subst hid
    have hrg : runGpCb (GpCb.handler id) b t
        { st with gpCaptureCb := none, gpCaptureType := none }
        = { st with gpCaptureCb := none, gpCaptureType := none,
                    gpLog := st.gpLog ++ [(id, b, t)] } := rfl
    refine ⟨?_, ?_, ?_⟩
    · rw [hmain, (hgpt _).1, hrg]
    · rw [hmain, (hgpt _).2.2, hrg]
    · intro b2 t2
      have hnone : (nextGamepadInputHandler st b t).gpCaptureCb = none := by
        rw [hmain, (hgpt _).1, hrg]
      rw [nextGamepadInputHandler_noCapture _ b2 t2 hnone]
      exact (hgpt _).2.2
  · intro inner hinner
    subst hinner
    have hrg : runGpCb (GpCb.thenArmRelease inner) b t
        { st with gpCaptureCb := none, gpCaptureType := none }
        = { st with gpCaptureCb := some inner,
                    gpCaptureType := some Edge.release } := rfl
    exact ⟨by rw [hmain, (hgpt _).1, hrg],
           by rw [hmain, (hgpt _).2.1, hrg]⟩

/-- A state with the remap scene's press-then-release capture armed. -/
def c10State : SysState :=
  onNextGamepadPress initState (GpCb.thenArmRelease (GpCb.handler 7))

/-- Witness for C10: firing the armed press capture re-arms the release
capture installed from inside the callback instead of discarding it. -/
theorem gamepad_capture_clear_before_invoke_witness :
    (c10State.gpCaptureCb = some (GpCb.thenArmRelease (GpCb.handler 7)) ∧
     c10State.gpCaptureType = some Edge.press) ∧
    ((nextGamepadInputHandler c10State 4 Edge.press).gpCaptureCb
        = some (GpCb.handler 7) ∧
     (nextGamepadInputHandler c10State 4 Edge.press).gpCaptureType
        = some Edge.release) :=
  ⟨⟨rfl, rfl⟩,
   (gamepad_capture_clear_before_invoke c10State
      (GpCb.thenArmRelease (GpCb.handler 7)) Edge.press 4 rfl rfl).2.2
      (GpCb.handler 7) rfl⟩

/-! ### C6: repeat timing -/

/-- The ArrowUp key-down event. -/
def arrowUpEvent : KeyEvent := { code := "ArrowUp", keyCode := 38 }

/-- The trigger-frame state: from boot, ArrowUp goes down and that
frame's update runs, so `up`'s held time is 0. -/
def heldScenarioStart : SysState :=
  inputUpdate [] (deliverKeyDown initState arrowUpEvent)

/-- `n` further frames with the key still held (no new key events). -/
def iterateUpdate (n : Nat) (st : SysState) : SysState :=
  Nat.iterate (inputUpdate []) n st

/-- C6: with the default 24-frame delay and 6-frame interval, a logical
name whose bound physical input is held continuously from its trigger
frame pulses `isRepeated` exactly at held time 0 (the trigger) and at
held times that are at least 24 and divisible by 6; over the 36 frames of
delay + 2·interval that is exactly the two additional pulses at held
times 24 and 30, while the held-time counter advances one per frame. -/
theorem repeat_timing :
    ((List.range 36).filter (fun k =>
        (isRepeatedE (iterateUpdate k heldScenarioStart) "up").getD false))
      = [0, 24, 30] ∧
    ((List.range 36).all (fun k =>
        (isRepeatedE (iterateUpdate k heldScenarioStart) "up")
          == some (k == 0 || (decide (24 ≤ k) && k % 6 == 0)))) = true ∧
    ((List.range 36).all (fun k =>
        (iterateUpdate k heldScenarioStart).pressedTime == k)) = true := by
  refine ⟨by decide, by decide, by decide⟩

/-! ### C4: configuration round-trip -/

theorem entries_eq_of_nodup_keys {t : Table} {p q : String × ControlInput}
    (hnd : (t.map (·.1)).Nodup) (hp : p ∈ t) (hq : q ∈ t) (h : p.1 = q.1) :
    p = q :=
  List.inj_on_of_nodup_map hnd hp hq h

theorem setControlMapInputs_restore {t : Table}
    (hnd : (t.map (·.1)).Nodup)
    (m : List (String × JsVal × JsVal))
    (hm : ∀ e ∈ m, ∃ f, (e.1, f) ∈ t ∧ f.keyboardButton = e.2.1
      ∧ f.gamepadButton = e.2.2) :
    setControlMapInputs t m = t := by
  induction m with
  | nil => rfl
  | cons e rest ih =>
      unfold setControlMapInputs
      rw [List.foldl_cons]
      obtain ⟨f, hf, hkb, hgp⟩ := hm e (List.mem_cons_self _ _)
      have hstep : (match t.lookup e.1 with
          | some _ => t.map (fun p =>
              if p.1 = e.1 then
                (p.1, { p.2 with keyboardButton := e.2.1,
                                 gamepadButton := e.2.2 })
              else p)
          | none => t) = t := by
        rw [lookup_eq_some_of_mem hnd hf]
        have hmap : ∀ p ∈ t,
            (if p.1 = e.1 then
              (p.1, { p.2 with keyboardButton := e.2.1,
                               gamepadButton := e.2.2 })
            else p) = p := by
          intro p hp
          by_cases hpk : p.1 = e.1
          · rw [if_pos hpk]
            have : p = (e.1, f) := entries_eq_of_nodup_keys hnd hp hf hpk
            rw [this, ← hkb, ← hgp]
          · rw [if_neg hpk]
        exact (List.map_congr_left hmap).trans (List.map_id t)
      rw [hstep]
      exact ih (fun x hx => hm x (List.mem_cons_of_mem _ hx))

theorem applyMappers_inputs (st : SysState) :
    (applyMappers st).inputs = st.inputs := by
  unfold applyMappers inputClear
  (repeat' split) <;> rfl

theorem applyMappers_targetName (st : SysState) :
    (applyMappers st).targetGamepadName = st.targetGamepadName := by
  unfold applyMappers inputClear
  (repeat' split) <;> rfl

/-- C4: saving the configuration (`ConfigManager.makeData`) and applying
it back (`ConfigManager.applyData`) reproduces the identical keyboard
and gamepad binding for every logical function and the identical
preferred-gamepad name. -/
theorem config_round_trip (st : SysState)
    (hnd : (st.inputs.map (·.1)).Nodup) :
    (∀ name, ((applyData st (makeData st)).inputs.lookup name).map
        (fun f => (f.keyboardButton, f.gamepadButton))
      = (st.inputs.lookup name).map
        (fun f => (f.keyboardButton, f.gamepadButton))) ∧
    (applyData st (makeData st)).targetGamepadName
      = st.targetGamepadName := by
  have hset : setControlMapInputs st.inputs (getControlMap st.inputs)
      = st.inputs := by
    apply setControlMapInputs_restore hnd
    intro e he
    obtain ⟨p, hp, rfl⟩ := List.mem_map.mp he
    exact ⟨p.2, hp, rfl, rfl⟩
  have hin : (applyData st (makeData st)).inputs = st.inputs := by
    unfold applyData setControlMap changeButtonSet setTargetGamepadName makeData
    dsimp only
    rw [(applyMappers_inputs _)]
    dsimp only
    exact hset
  have hname : (applyData st (makeData st)).targetGamepadName
      = st.targetGamepadName := by
    unfold applyData setControlMap changeButtonSet setTargetGamepadName makeData
    dsimp only
    rw [(applyMappers_targetName _)]
  exact ⟨fun name => by rw [hin], hname⟩

/-- Witness for C4: the boot state round-trips. -/
theorem config_round_trip_witness :
    (initState.inputs.map (·.1)).Nodup ∧
    (∀ name, ((applyData initState (makeData initState)).inputs.lookup name).map
        (fun f => (f.keyboardButton, f.gamepadButton))
      = (initState.inputs.lookup name).map
        (fun f => (f.keyboardButton, f.gamepadButton))) ∧
    (applyData initState (makeData initState)).targetGamepadName
      = initState.targetGamepadName :=
  ⟨by decide, (config_round_trip initState (by decide)).1,
   (config_round_trip initState (by decide)).2⟩

/-! ### C8: ordinal lookup -/

/-- C8: for an index below the function count, `getInputByIndex` returns
the i-th function in insertion order; for any index at or past the count
it yields no function (the JS returns `undefined`). -/
theorem ordinal_lookup (t : Table) (i : Nat)
    (hnd : (t.map (·.1)).Nodup) (hu : "undefined" ∉ t.map (·.1)) :
    (i < t.length → getInputByIndex t i = (t.get? i).map (·.2)) ∧
    (t.length ≤ i → getInputByIndex t i = none) := by
  constructor
  · intro hlt
    unfold getInputByIndex
    obtain ⟨p, hp⟩ : ∃ p, t.get? i = some p := by
      cases h : t.get? i with
      | none =>
          rw [List.get?_eq_none] at h
          omega
      | some p => exact ⟨p, rfl⟩
    rw [List.get?_map, hp]
    simp only [Option.map_some']
    have hmem : (p.1, p.2) ∈ t := by
      rw [show ((p.1, p.2) : String × ControlInput) = p from rfl]
      exact List.get?_mem hp
    rw [lookup_eq_some_of_mem hnd hmem]
  · intro hge
    unfold getInputByIndex
    rw [List.get?_map, List.get?_eq_none.mpr hge]
    simp only [Option.map_none']
    exact lookup_eq_none_of_not_mem hu

/-- Witness for C8: on the default ten-function table, index 2 resolves
to the `left` function and index 100 to nothing. -/
theorem ordinal_lookup_witness :
    ((defaultInputs.map (·.1)).Nodup ∧
      "undefined" ∉ defaultInputs.map (·.1) ∧
      2 < defaultInputs.length ∧ defaultInputs.length ≤ 100) ∧
    getInputByIndex defaultInputs 2 = (defaultInputs.get? 2).map (·.2) ∧
    getInputByIndex defaultInputs 100 = none :=
  ⟨⟨by decide, by decide, by decide, by decide⟩,
   (ordinal_lookup defaultInputs 2 (by decide) (by decide)).1 (by decide),
   (ordinal_lookup defaultInputs 100 (by decide) (by decide)).2 (by decide)⟩

/-! ### C9: icon resolution on unknown bindings -/

/-- C9 counterexample: rebinding `dash`'s keyboard slot to `F1` (absent
from the key-code icon table) makes `getKeyboardControlIconIndex` yield
no valid index (`NaN`), not the designated fallback; likewise
`getGamepadControlIconIndex` after rebinding `dash`'s gamepad slot to
button 16, which is absent from the button icon table. -/
theorem icon_fallback_counterexample :
    codeToIconIndex.lookup "F1" = none ∧
    getKeyboardControlIconIndex 0
      (setControlButton defaultInputs "dash" (JsVal.str "F1")
        Slot.keyboardButton) "dash" = none ∧
    gamepadIconLookup (JsVal.num 16) = none ∧
    getGamepadControlIconIndex 0 0
      (setControlButton defaultInputs "dash" (JsVal.num 16)
        Slot.gamepadButton) "dash" = none ∧
    defaultButtonIcon 0 = 64 :=
  ⟨by decide, by decide, by decide, by decide, by decide⟩

/-- C9 (amended): on a keyboard binding absent from the key-code icon
table, `getKeyboardControlIconIndex` produces no valid icon index
(`NaN`), and likewise `getGamepadControlIconIndex` on a gamepad binding
absent from the button icon table; the designated unknown fallback is
returned by the `KB` text-escape resolver, which yields
`defaultButtonIcon` for every unrecognized non-arrow key code. -/
theorem icon_fallback_amended :
    (∀ base t param f kb, t.lookup param = some f →
      f.keyboardButton = JsVal.str kb →
      codeToIconIndex.lookup kb = none →
      getKeyboardControlIconIndex base t param = none) ∧
    (∀ base set t param f, t.lookup param = some f →
      gamepadIconLookup f.gamepadButton = none →
      getGamepadControlIconIndex base set t param = none) ∧
    (∀ base param,
      param ∉ ["ArrowLeft", "ArrowUp", "ArrowRight", "ArrowDown"] →
      codeToIconIndex.lookup param = none →
      obtainKBIconIndex base param = defaultButtonIcon base) := by
  refine ⟨?_, ?_, ?_⟩
  · intro base t param f kb hf hkb hmiss
    unfold getKeyboardControlIconIndex
    rw [hf]
    dsimp only
    rw [hkb]
    dsimp only
    rw [hmiss]
  · intro base set t param f hf hmiss
    unfold getGamepadControlIconIndex
    rw [hf]
    dsimp only
    rw [hmiss]
  · intro base param harrow hmiss
    unfold obtainKBIconIndex
    dsimp only
    have hc : (["ArrowLeft", "ArrowUp", "ArrowRight",
        "ArrowDown"].contains param) = false := by
      by_contra hcc
      rw [Bool.not_eq_false] at hcc
      exact harrow (List.mem_of_elem_eq_true hcc)
    rw [hc, if_neg (by decide : ¬ (false = true))]
    rw [hmiss]

/-- The record `dash` holds after its keyboard slot is rebound to `F1`. -/
def dashF1 : ControlInput :=
  { name := "dash", fieldTitle := "Dash"
    keyboardButton := JsVal.str "F1", gamepadButton := JsVal.num 6
    defaultKeyboardButton := JsVal.str "KeyQ"
    defaultGamepButton := JsVal.num 6 }

/-- Witness for the amended C9, at the concrete rebound tables of the
counterexample and the unrecognized key code `F1`. -/
theorem icon_fallback_amended_witness :
    ((setControlButton defaultInputs "dash" (JsVal.str "F1")
        Slot.keyboardButton).lookup "dash" = some dashF1 ∧
      dashF1.keyboardButton = JsVal.str "F1" ∧
      codeToIconIndex.lookup "F1" = none ∧
      "F1" ∉ ["ArrowLeft", "ArrowUp", "ArrowRight", "ArrowDown"]) ∧
    getKeyboardControlIconIndex 5
      (setControlButton defaultInputs "dash" (JsVal.str "F1")
        Slot.keyboardButton) "dash" = none ∧
    obtainKBIconIndex 5 "F1" = defaultButtonIcon 5 :=
  ⟨⟨by decide, by decide, by decide, by decide⟩,
   icon_fallback_amended.1 5
     (setControlButton defaultInputs "dash" (JsVal.str "F1")
       Slot.keyboardButton) "dash" dashF1 "F1" (by decide) (by decide)
     (by decide),
   icon_fallback_amended.2.2 5 "F1" (by decide) (by decide)⟩

/-! ### C7: unknown-name query tolerance -/

/-- Every logical name any rebuilt mapper can emit: the table's function
ids plus the fixed alias and failsafe names the rebuild writes. -/
def allowedNames : List String :=
  defaultInputs.map (·.1) ++
    ["static_tab", "static_escape", "cancel", "confirm", "ok", "shift",
     "pageup", "pagedown"]

/-- Invariant of every reachable input state: the table keeps the default
keys, every logical name recorded anywhere in the aggregation state was
emitted by a mapper (so lies in `allowedNames`), no virtual button is
pending, and both installed mappers emit only allowed names. -/
structure StInv (st : SysState) : Prop where
  tableKeys : st.inputs.map (·.1) = defaultInputs.map (·.1)
  curKeys : ∀ p ∈ st.currentState, p.1 ∈ allowedNames
  prevKeys : ∀ p ∈ st.previousState, p.1 ∈ allowedNames
  latest : ∀ l, st.latestButton = some l → ∀ n ∈ l, n ∈ allowedNames
  virt : st.virtualButton = none
  kmVals : ∀ p ∈ st.keyMapper, ∀ n ∈ p.2, n ∈ allowedNames
  gmVals : ∀ p ∈ st.gamepadMapper, ∀ n ∈ p.2, n ∈ allowedNames

theorem stInv_of_coreFields_eq {st st' : SysState}
    (h : coreFields st' = coreFields st) (hi : StInv st) : StInv st' := by
  unfold coreFields at h
  simp only [Prod.mk.injEq] at h
  obtain ⟨h1, h2, h3, h4, h5, h6, h7, h8⟩ := h
  exact ⟨by rw [h1]; exact hi.tableKeys,
         by rw [h2]; exact hi.curKeys,
         by rw [h3]; exact hi.prevKeys,
         by rw [h4]; exact hi.latest,
         by rw [h6]; exact hi.virt,
         by rw [h7]; exact hi.kmVals,
         by rw [h8]; exact hi.gmVals⟩

/-- Values-predicate preservation for the in-place `push` of a name onto
an existing keyed entry. -/
theorem mapPush_vals_pred {α : Type} [DecidableEq α] (P : String → Prop)
    (m : List (α × List String)) (k : α) (x : String)
    (hm : ∀ p ∈ m, ∀ n ∈ p.2, P n) (hx : P x) :
    ∀ p ∈ m.map (fun p => if p.1 = k then (p.1, p.2 ++ [x]) else p),
      ∀ n ∈ p.2, P n := by
  intro p hp
  obtain ⟨q, hq, rfl⟩ := List.mem_map.mp hp
  by_cases hqk : q.1 = k
  · simp only [if_pos hqk]
    intro n hn
    rcases List.mem_append.mp hn with h | h
    · exact hm q hq n h
    · simp at h
      rw [h]
      exact hx
  · simp only [if_neg hqk]
    exact hm q hq

theorem gmEnsurePush_vals_pred (P : String → Prop) (m : GMap) (j : Nat)
    (x : String) (hm : ∀ p ∈ m, ∀ n ∈ p.2, P n) (hx : P x) :
    ∀ p ∈ gmEnsurePush m j x, ∀ n ∈ p.2, P n := by
  unfold gmEnsurePush
  dsimp only
  apply mapPush_vals_pred P _ j x _ hx
  split
  · exact hm
  · exact assocSet_vals_pred (fun l => ∀ n ∈ l, P n) m j [] hm
      (fun n hn => absurd hn (List.not_mem_nil n))

theorem rebuildKeyboardMap_vals {t : Table} {m : KMap}
    (ht : t.map (·.1) = defaultInputs.map (·.1))
    (hm : rebuildKeyboardMap t = some m) :
    ∀ p ∈ m, ∀ n ∈ p.2, n ∈ allowedNames := by
  have hk : ∀ k ∈ t.map (·.1), k ∈ allowedNames := by
    rw [ht]
    intro k hk
    exact List.mem_append_left _ hk
  obtain ⟨fc, hfc⟩ := Option.isSome_iff_exists.mp
    (@lookup_isSome_of_mem_keys _ t "cancel" (by rw [ht]; decide))
  obtain ⟨fo, hfo⟩ := Option.isSome_iff_exists.mp
    (@lookup_isSome_of_mem_keys _ t "confirm" (by rw [ht]; decide))
  obtain ⟨fd, hfd⟩ := Option.isSome_iff_exists.mp
    (@lookup_isSome_of_mem_keys _ t "dash" (by rw [ht]; decide))
  obtain ⟨fl, hfl⟩ := Option.isSome_iff_exists.mp
    (@lookup_isSome_of_mem_keys _ t "cycle_left" (by rw [ht]; decide))
  obtain ⟨fr, hfr⟩ := Option.isSome_iff_exists.mp
    (@lookup_isSome_of_mem_keys _ t "cycle_right" (by rw [ht]; decide))
  unfold rebuildKeyboardMap at hm
  rw [hfc, hfo, hfd, hfl, hfr] at hm
  dsimp only at hm
  replace hm := Option.some.inj hm
  rw [← hm]
  have hQ0 : ∀ p ∈ (t.foldl
      (fun mm p => kmSet mm p.2.keyboardButton.toKey [p.1]) []),
      ∀ n ∈ p.2, n ∈ allowedNames := by
    apply foldl_preserve
      (fun mm : KMap => ∀ p ∈ mm, ∀ n ∈ p.2, n ∈ allowedNames)
    · intro p hp
      cases hp
    · intro s a ha hq
      apply assocSet_vals_pred (fun l => ∀ n ∈ l, n ∈ allowedNames) _ _ _ hq
      intro n hn
      simp at hn
      rw [hn]
      exact hk a.1 (List.mem_map_of_mem (·.1) ha)
  generalize hg0 : t.foldl
      (fun mm p => kmSet mm p.2.keyboardButton.toKey [p.1]) [] = m0
  rw [hg0] at hQ0
  have hQ1 : ∀ p ∈ (if (kmGet m0 "Tab").isSome then m0
      else kmSet m0 "Tab" ["static_tab"]), ∀ n ∈ p.2, n ∈ allowedNames := by
    split
    · exact hQ0
    · apply assocSet_vals_pred (fun l => ∀ n ∈ l, n ∈ allowedNames) _ _ _ hQ0
      intro n hn
      simp at hn
      rw [hn]
      decide
  generalize hg1 : (if (kmGet m0 "Tab").isSome then m0
      else kmSet m0 "Tab" ["static_tab"]) = m1
  rw [hg1] at hQ1
  have hQ2 : ∀ p ∈ (if (kmGet m1 "Escape").isSome then m1
      else kmSet m1 "Escape" ["static_escape"]), ∀ n ∈ p.2,
      n ∈ allowedNames := by
    split
    · exact hQ1
    · apply assocSet_vals_pred (fun l => ∀ n ∈ l, n ∈ allowedNames) _ _ _ hQ1
      intro n hn
      simp at hn
      rw [hn]
      decide
  generalize hg2 : (if (kmGet m1 "Escape").isSome then m1
      else kmSet m1 "Escape" ["static_escape"]) = m2
  rw [hg2] at hQ2
  refine assocSet_vals_pred (fun l => ∀ n ∈ l, n ∈ allowedNames) _ _ _ ?_
    (by intro n hn; simp at hn; rw [hn]; decide)
  refine assocSet_vals_pred (fun l => ∀ n ∈ l, n ∈ allowedNames) _ _ _ ?_
    (by intro n hn; simp at hn; rw [hn]; decide)
  refine assocSet_vals_pred (fun l => ∀ n ∈ l, n ∈ allowedNames) _ _ _ ?_
    (by intro n hn; simp at hn; rw [hn]; decide)
  refine mapPush_vals_pred (fun n => n ∈ allowedNames) _ _ _ ?_ (by decide)
  refine assocSet_vals_pred (fun l => ∀ n ∈ l, n ∈ allowedNames) _ _ _ ?_
    (by intro n hn; simp at hn; rw [hn]; decide)
  refine assocSet_vals_pred (fun l => ∀ n ∈ l, n ∈ allowedNames) _ _ _ ?_
    (by intro n hn; simp at hn; rw [hn]; decide)
  exact hQ2



/-- Values-predicate preservation for the conditional override
`if (index !== undefined) map[index] = v`. -/
theorem matchSet_vals_pred (P : String → Prop) (m : GMap) (o : Option Nat)
    (v : List String) (hm : ∀ p ∈ m, ∀ n ∈ p.2, P n)
    (hv : ∀ n ∈ v, P n) :
    ∀ p ∈ ((match o with | some j => assocSet m j v | none => m : GMap)),
      ∀ n ∈ p.2, P n := by
  cases o
  · exact hm
  · exact assocSet_vals_pred (fun l => ∀ n ∈ l, P n) _ _ _ hm hv

/-- Values-predicate preservation for the conditional in-place push
`if (index !== undefined) map[index].push(x)`. -/
theorem matchPush_vals_pred (P : String → Prop) (m : GMap) (o : Option Nat)
    (x : String) (hm : ∀ p ∈ m, ∀ n ∈ p.2, P n) (hx : P x) :
    ∀ p ∈ ((match o with
      | some j => m.map (fun q => if q.1 = j then (q.1, q.2 ++ [x]) else q)
      | none => m : GMap)),
      ∀ n ∈ p.2, P n := by
  cases o
  · exact hm
  · exact mapPush_vals_pred P _ _ x hm hx

/-- Every logical name carried by the rebuilt gamepad mapper of a table
with the default keys is in `allowedNames`. -/
theorem rebuildGamepadMap_vals {t : Table} {m : GMap}
    (ht : t.map (·.1) = defaultInputs.map (·.1))
    (hm : rebuildGamepadMap t = some m) :
    ∀ p ∈ m, ∀ n ∈ p.2, n ∈ allowedNames := by
  have hk : ∀ k ∈ t.map (·.1), k ∈ allowedNames := by
    rw [ht]
    intro k hk
    exact List.mem_append_left _ hk
  obtain ⟨fc, hfc⟩ := Option.isSome_iff_exists.mp
    (@lookup_isSome_of_mem_keys _ t "cancel" (by rw [ht]; decide))
  obtain ⟨fo, hfo⟩ := Option.isSome_iff_exists.mp
    (@lookup_isSome_of_mem_keys _ t "confirm" (by rw [ht]; decide))
  obtain ⟨fd, hfd⟩ := Option.isSome_iff_exists.mp
    (@lookup_isSome_of_mem_keys _ t "dash" (by rw [ht]; decide))
  unfold rebuildGamepadMap at hm
  rw [hfc, hfo, hfd] at hm
  dsimp only at hm
  replace hm := Option.some.inj hm
  rw [← hm]
  have hQ0 : ∀ p ∈ (t.foldl (fun m p =>
      match p.2.gamepadButton.arrayIndex with
      | some j => gmEnsurePush m j p.1
      | none => m) []), ∀ n ∈ p.2, n ∈ allowedNames := by
    apply foldl_preserve
      (fun mm : GMap => ∀ p ∈ mm, ∀ n ∈ p.2, n ∈ allowedNames)
    · intro p hp
      cases hp
    · intro s a ha hq
      cases a.2.gamepadButton.arrayIndex
      · exact hq
      · exact gmEnsurePush_vals_pred (fun n => n ∈ allowedNames) _ _ _ hq
          (hk a.1 (List.mem_map_of_mem (·.1) ha))
  generalize hg0 : t.foldl (fun m p =>
      match p.2.gamepadButton.arrayIndex with
      | some j => gmEnsurePush m j p.1
      | none => m) [] = m0
  rw [hg0] at hQ0
  have hQ1 : ∀ p ∈ ((List.range 16).foldl
      (fun m j => if (gmGet m j).isSome then m else assocSet m j []) m0),
      ∀ n ∈ p.2, n ∈ allowedNames := by
    apply foldl_preserve
      (fun mm : GMap => ∀ p ∈ mm, ∀ n ∈ p.2, n ∈ allowedNames)
    · exact hQ0
    · intro s j hj hq
      split
      · exact hq
      · exact assocSet_vals_pred (fun l => ∀ n ∈ l, n ∈ allowedNames)
          _ _ _ hq (fun n hn => absurd hn (List.not_mem_nil n))
  generalize hg1 : (List.range 16).foldl
      (fun m j => if (gmGet m j).isSome then m else assocSet m j []) m0 = m1
  rw [hg1] at hQ1
  refine matchSet_vals_pred (fun n => n ∈ allowedNames) _ _ _ ?_
    (by intro n hn; simp at hn; rw [hn]; decide)
  refine matchPush_vals_pred (fun n => n ∈ allowedNames) _ _ _ ?_ (by decide)
  refine matchSet_vals_pred (fun n => n ∈ allowedNames) _ _ _ ?_
    (by intro n hn; simp at hn; rw [hn]; decide)
  refine matchSet_vals_pred (fun n => n ∈ allowedNames) _ _ _ ?_
    (by intro n hn; simp at hn; rw [hn]; decide)
  exact hQ1

/-- `Input.clear` preserves the invariant: the rewritten current state
only reuses keys already recorded, and the latest-button list becomes
empty. -/
theorem stInv_inputClear {st : SysState} (h : StInv st) :
    StInv (inputClear st) := by
  unfold inputClear
  dsimp only
  refine ⟨h.tableKeys, ?_, h.prevKeys, (fun l hl => nomatch hl), rfl,
    h.kmVals, h.gmVals⟩
  apply foldl_preserve
    (fun c : List (String × Bool) => ∀ p ∈ c, p.1 ∈ allowedNames)
  · intro p hp
    obtain ⟨q, hq, rfl⟩ := List.mem_map.mp hp
    exact h.curKeys q hq
  · intro s a ha hq
    exact assocSet_keys_pred (fun k => k ∈ allowedNames) _ _ _ hq
      (h.prevKeys a ha)

/-- `SQInput.rebuildButtonMapper` preserves the invariant: the two fresh
mappers emit only allowed names, and the trailing clear keeps the rest. -/
theorem stInv_applyMappers {st : SysState} (h : StInv st) :
    StInv (applyMappers st) := by
  unfold applyMappers
  cases hkm : rebuildKeyboardMap st.inputs with
  | none => cases rebuildGamepadMap st.inputs <;> exact h
  | some km =>
      cases hgm : rebuildGamepadMap st.inputs with
      | none => exact h
      | some gm =>
          dsimp only
          exact stInv_inputClear
            ⟨h.tableKeys, h.curKeys, h.prevKeys, h.latest, h.virt,
             rebuildKeyboardMap_vals h.tableKeys hkm,
             rebuildGamepadMap_vals h.tableKeys hgm⟩

/-- `Input._onKeyUp` preserves the invariant: the driven names come from
the installed keyboard mapper. -/
theorem stInv_onKeyUp {st : SysState} (h : StInv st) (ev : KeyEvent) :
    StInv (onKeyUp st ev) := by
  unfold onKeyUp
  dsimp only
  cases hk : kmGet st.keyMapper
      (if ev.code ≠ "" then ev.code else toString ev.keyCode) with
  | none => exact h
  | some names =>
      dsimp only
      refine ⟨h.tableKeys, ?_, h.prevKeys, h.latest, h.virt, h.kmVals,
        h.gmVals⟩
      apply foldl_preserve
        (fun c : List (String × Bool) => ∀ p ∈ c, p.1 ∈ allowedNames)
        _ _ _ h.curKeys
      intro c b hb hq
      exact assocSet_keys_pred (fun k => k ∈ allowedNames) _ _ _ hq
        (h.kmVals _ (mem_of_lookup_eq_some hk) b hb)

/-- `Input._onKeyDown` preserves the invariant. -/
theorem stInv_onKeyDown {st : SysState} (h : StInv st) (ev : KeyEvent) :
    StInv (onKeyDown st ev) := by
  unfold onKeyDown
  dsimp only
  have h1 : StInv (if ev.keyCode = 144 then inputClear st else st) := by
    split
    · exact stInv_inputClear h
    · exact h
  generalize hg : (if ev.keyCode = 144 then inputClear st else st) = st1
  rw [hg] at h1
  cases hk : kmGet st1.keyMapper
      (if ev.code ≠ "" then ev.code else toString ev.keyCode) with
  | none => exact h1
  | some names =>
      dsimp only
      refine ⟨h1.tableKeys, ?_, h1.prevKeys, h1.latest, h1.virt, h1.kmVals,
        h1.gmVals⟩
      apply foldl_preserve
        (fun c : List (String × Bool) => ∀ p ∈ c, p.1 ∈ allowedNames)
        _ _ _ h1.curKeys
      intro c b hb hq
      exact assocSet_keys_pred (fun k => k ∈ allowedNames) _ _ _ hq
        (h1.kmVals _ (mem_of_lookup_eq_some hk) b hb)

/-- A delivered `keydown` preserves the invariant (the capture listener
only touches non-core fields). -/
theorem stInv_deliverKeyDown {st : SysState} (h : StInv st) (ev : KeyEvent) :
    StInv (deliverKeyDown st ev) :=
  stInv_of_coreFields_eq (coreFields_nextKeyboardInputHandler _ ev)
    (stInv_onKeyDown h ev)

/-- The engine's gamepad state update preserves the invariant: every
transition drives names taken from the installed gamepad mapper. -/
theorem stInv_originalUpdate {st : SysState} (h : StInv st) (g : Gamepad) :
    StInv (originalUpdateGamepadState st g) := by
  unfold originalUpdateGamepadState
  dsimp only
  refine ⟨h.tableKeys, ?_, h.prevKeys, h.latest, h.virt, h.kmVals, h.gmVals⟩
  unfold applyGpTransitions
  apply foldl_preserve
    (fun c : List (String × Bool) => ∀ p ∈ c, p.1 ∈ allowedNames)
    _ _ _ h.curKeys
  intro c j hj hq
  split
  · cases hm : gmGet st.gamepadMapper j with
    | none => exact hq
    | some names =>
        dsimp only
        apply foldl_preserve
          (fun c : List (String × Bool) => ∀ p ∈ c, p.1 ∈ allowedNames)
          _ _ _ hq
        intro c2 b hb hq2
        exact assocSet_keys_pred (fun k => k ∈ allowedNames) _ _ _ hq2
          (h.gmVals _ (mem_of_lookup_eq_some hm) b hb)
  · exact hq

/-- The overridden per-gamepad frame step preserves the invariant. -/
theorem stInv_updateGamepadState {st : SysState} (h : StInv st)
    (g : Gamepad) : StInv (updateGamepadState st g).1 := by
  unfold updateGamepadState
  dsimp only
  have h0 : StInv (if st.activeGamepadIndex = none
      then updateActiveGamepad st else st) := by
    split
    · exact stInv_of_coreFields_eq (coreFields_updateActiveGamepad st) h
    · exact h
  generalize hg0 : (if st.activeGamepadIndex = none
      then updateActiveGamepad st else st) = st0
  rw [hg0] at h0
  have h1 : StInv (if st0.activeGamepadIndex = some g.index
      then originalUpdateGamepadState st0 g else st0) := by
    split
    · exact stInv_originalUpdate h0 g
    · exact h0
  generalize hg1 : (if st0.activeGamepadIndex = some g.index
      then originalUpdateGamepadState st0 g else st0) = st1
  rw [hg1] at h1
  cases firstTransition ((st.gamepadStates.lookup g.index).getD [])
      ((st1.gamepadStates.lookup g.index).getD []) with
  | none => exact h1
  | some j =>
      dsimp only
      exact stInv_of_coreFields_eq
        (coreFields_nextGamepadInputHandler st1 j _) h1

/-- The edge-collecting fold of `Input.update` only records names taken
from the current state's keys, and rolls only recorded keys into the
previous state. -/
theorem updateCoreFold_inv (cur : List (String × Bool)) (lb : List String)
    (pt : Nat) (prev : List (String × Bool))
    (hcur : ∀ p ∈ cur, p.1 ∈ allowedNames)
    (hlb : ∀ n ∈ lb, n ∈ allowedNames)
    (hprev : ∀ p ∈ prev, p.1 ∈ allowedNames) :
    (∀ n ∈ (cur.foldl
      (fun (acc : List String × Nat × List (String × Bool)) p =>
        let rising := p.2 && !((acc.2.2.lookup p.1).getD false)
        (if rising then acc.1 ++ [p.1] else acc.1,
         if rising then 0 else acc.2.1,
         assocSet acc.2.2 p.1 p.2)) (lb, pt, prev)).1, n ∈ allowedNames) ∧
    (∀ p ∈ (cur.foldl
      (fun (acc : List String × Nat × List (String × Bool)) p =>
        let rising := p.2 && !((acc.2.2.lookup p.1).getD false)
        (if rising then acc.1 ++ [p.1] else acc.1,
         if rising then 0 else acc.2.1,
         assocSet acc.2.2 p.1 p.2)) (lb, pt, prev)).2.2,
      p.1 ∈ allowedNames) := by
  apply foldl_preserve
    (fun acc : List String × Nat × List (String × Bool) =>
      (∀ n ∈ acc.1, n ∈ allowedNames) ∧ (∀ p ∈ acc.2.2, p.1 ∈ allowedNames))
  · exact ⟨hlb, hprev⟩
  · intro s a ha hq
    dsimp only
    constructor
    · split
      · intro n hn
        rcases List.mem_append.mp hn with h' | h'
        · exact hq.1 n h'
        · simp at h'
          rw [h']
          exact hcur a ha
      · exact hq.1
    · exact assocSet_keys_pred (fun k => k ∈ allowedNames) _ _ _ hq.2
        (hcur a ha)

/-- The bookkeeping stage of `Input.update` preserves the invariant:
the fresh latest-button list holds only names from the current state or
the previous latest list, no virtual button was pending so none results,
and the rolled previous state only gains current-state keys. -/
theorem stInv_updateCore {st : SysState} (h : StInv st) :
    StInv (updateCore st) := by
  have hlb1 : ∀ n ∈ (if (st.latestButton.getD []).length != 0 &&
      (st.currentState.lookup ((st.latestButton.getD []).headD "")).getD false
      then st.latestButton.getD [] else []), n ∈ allowedNames := by
    split
    · cases hl : st.latestButton with
      | none => intro n hn; cases hn
      | some l => exact h.latest l hl
    · intro n hn
      cases hn
  have hfold := updateCoreFold_inv st.currentState _
    (if (st.latestButton.getD []).length != 0 &&
      (st.currentState.lookup ((st.latestButton.getD []).headD "")).getD false
     then st.pressedTime + 1 else st.pressedTime)
    st.previousState h.curKeys hlb1 h.prevKeys
  unfold updateCore
  dsimp only
  rw [h.virt]
  dsimp only
  exact ⟨h.tableKeys, h.curKeys, hfold.2,
    (fun l hl => by rw [← Option.some.inj hl]; exact hfold.1), rfl,
    h.kmVals, h.gmVals⟩

/-- The failsafe stage of `Input.update` preserves the invariant: the
reset path restores the defaults (keeping the table's keys) and rebuilds
both mappers. -/
theorem stInv_failsafeCheck {st : SysState} (h : StInv st) :
    StInv (failsafeCheck st) := by
  unfold failsafeCheck
  dsimp only
  split
  · have h2 := @stInv_applyMappers { st with
      inputs := resetMapInputs st.inputs }
      ⟨(resetMapInputs_keys st.inputs).trans h.tableKeys, h.curKeys,
       h.prevKeys, h.latest, h.virt, h.kmVals, h.gmVals⟩
    exact ⟨h2.tableKeys, h2.curKeys, h2.prevKeys, h2.latest, h2.virt,
      h2.kmVals, h2.gmVals⟩
  · split
    · exact ⟨h.tableKeys, h.curKeys, h.prevKeys, h.latest, h.virt,
        h.kmVals, h.gmVals⟩
    · exact h

/-- The whole overridden `Input.update` preserves the invariant. -/
theorem stInv_inputUpdate {st : SysState} (h : StInv st)
    (pads : List Gamepad) : StInv (inputUpdate pads st) := by
  unfold inputUpdate
  apply stInv_failsafeCheck
  apply stInv_updateCore
  apply foldl_preserve (fun s : SysState => StInv s) _ _ _ h
  intro s g hg hs
  exact stInv_updateGamepadState hs g

/-- Every externally driven event preserves the invariant. -/
theorem stInv_applyEv {st : SysState} (h : StInv st) (ev : Ev) :
    StInv (applyEv st ev) := by
  cases ev with
  | keyDown e => exact stInv_deliverKeyDown h e
  | keyUp e => exact stInv_onKeyUp h e
  | frame pads => exact stInv_inputUpdate h pads
  | clearEv => exact stInv_inputClear h
  | rebind c v s =>
      dsimp only [applyEv]
      split
      · exact stInv_applyMappers
          ⟨(setControlButton_keys st.inputs c v s).trans h.tableKeys,
           h.curKeys, h.prevKeys, h.latest, h.virt, h.kmVals, h.gmVals⟩
      · exact h
  | resetEv =>
      exact stInv_applyMappers
        ⟨(resetMapInputs_keys st.inputs).trans h.tableKeys, h.curKeys,
         h.prevKeys, h.latest, h.virt, h.kmVals, h.gmVals⟩
  | armKb id => exact @stInv_of_coreFields_eq st _ rfl h
  | cancelKb => exact @stInv_of_coreFields_eq st _ rfl h
  | armGpPress cb => exact @stInv_of_coreFields_eq st _ rfl h
  | armGpRelease cb => exact @stInv_of_coreFields_eq st _ rfl h
  | cancelGp => exact @stInv_of_coreFields_eq st _ rfl h
  | connectionEv pads =>
      exact stInv_of_coreFields_eq (coreFields_updateActiveGamepad _)
        (@stInv_of_coreFields_eq st _ rfl h)

/-- The boot state satisfies the invariant. -/
theorem stInv_initState : StInv initState :=
  stInv_applyMappers
    ⟨rfl, (fun p hp => nomatch hp), (fun p hp => nomatch hp),
     (fun l hl => nomatch hl), rfl, (fun p hp => nomatch hp),
     (fun p hp => nomatch hp)⟩

/-- Every reachable state satisfies the invariant. -/
theorem stInv_reachable {st : SysState} (h : Reachable st) : StInv st := by
  induction h with
  | init => exact stInv_initState
  | step ev hr ih => exact stInv_applyEv ih ev

/-- A plain DOM keydown for the Z key (the default `confirm` binding). -/
def keyZEvent : KeyEvent := { code := "KeyZ", keyCode := 90 }

/-- Press Z, then run one frame: the frame's update latches the rising
edges into `_latestButton`. -/
def aliasStateC7 : SysState :=
  applyEv (applyEv initState (Ev.keyDown keyZEvent)) (Ev.frame [])

/-- C7: the claim as stated fails twice over.  `"ok"` is a name the
binding table does not contain, yet in the reachable state reached by
pressing the Z key and running a frame, `isTriggered("ok")` is `true`
(the rebuilt keyboard mapper pushes the engine alias `ok` alongside
`confirm`); and right after boot (whose trailing `Input.clear` nulls
`_latestButton`), `isTriggered` on any name throws (`none`) instead of
returning false. -/
theorem unknown_name_queries_counterexample :
    aliasStateC7.inputs.lookup "ok" = none ∧
    Reachable aliasStateC7 ∧
    isTriggeredE aliasStateC7 "ok" = some true ∧
    isTriggeredE initState "confirm" = none :=
  ⟨by decide,
   Reachable.step (Ev.frame [])
     (Reachable.step (Ev.keyDown keyZEvent) Reachable.init),
   by decide, by decide⟩

/-- C7 (amended): in every reachable state in which an update has run
since the last clear (`_latestButton` is non-null), every name outside
the mapper-emitted vocabulary — the table's function ids plus the fixed
aliases and failsafe names — answers `false` to `isTriggered`,
`isRepeated` and `isPressed` rather than failing. -/
theorem unknown_name_queries_amended (st : SysState) (name : String)
    (hr : Reachable st) (hlb : st.latestButton ≠ none)
    (hn : name ∉ allowedNames) :
    isTriggeredE st name = some false ∧ isRepeatedE st name = some false ∧
    isPressed st name = false := by
  have h := stInv_reachable hr
  obtain ⟨lb, hlbe⟩ := Option.ne_none_iff_exists'.mp hlb
  have hesc : isEscapeCompatible name = false := by
    unfold isEscapeCompatible
    have h1 : name ≠ "cancel" := fun he => hn (by
      rw [he]; decide)
    have h2 : name ≠ "menu" := fun he => hn (by
      rw [he]; decide)
    simp [h1, h2]
  have hmem : name ∉ lb := fun hm => hn (h.latest lb hlbe name hm)
  have hcur : st.currentState.lookup name = none := by
    cases hc : st.currentState.lookup name with
    | none => rfl
    | some v =>
        exact absurd (h.curKeys (name, v) (mem_of_lookup_eq_some hc)) hn
  refine ⟨?_, ?_, ?_⟩
  · unfold isTriggeredE
    rw [hlbe]
    dsimp only
    simp [hesc, hmem]
  · unfold isRepeatedE
    rw [hlbe]
    dsimp only
    simp [hesc, hmem]
  · unfold isPressed
    simp [hesc, hcur]

/-- C7 witness: the speculative name `zzz` queried in the reachable
post-frame state answers false everywhere. -/
theorem unknown_name_queries_amended_witness :
    isTriggeredE aliasStateC7 "zzz" = some false ∧
    isRepeatedE aliasStateC7 "zzz" = some false ∧
    isPressed aliasStateC7 "zzz" = false :=
  unknown_name_queries_amended aliasStateC7 "zzz"
    (Reachable.step (Ev.frame [])
      (Reachable.step (Ev.keyDown keyZEvent) Reachable.init))
    (by decide) (by decide)
